import Mathlib

/-!
# BattleBeyz rigid-body core: `BeybladeBody`

A shallow embedding of `src/RigidBodies/BeybladeBody.cpp` and
`src/RigidBodies/BeybladeParts.h`.

Numbers. The C++ code computes with `double` scalars and with `glm::vec3`
vectors of `float` components.  The embedding has one scalar type `α`.

* The constructor and `distanceOverlap` compute in `double`; they are embedded
  over a linearly ordered field `α` (exact arithmetic: rounding, overflow and
  NaN of `double` are not modelled).
* The getters, the accumulate-phase mutators, the commit and the position
  integration compute on `glm::vec3`; their definitions ask only for the
  operations they use (`+`, `*`, `/`, unary `-`, `<`), so they run both on an
  ordered field and on `F32`, a model of IEEE 754 binary32.  A theorem stated
  for a `SignedArith` arithmetic uses only laws that hold in both.
* The square root used by `sqrt`, `glm::length` and `glm::normalize` is an
  explicit function argument `sqrt : α → α`: `Rat.sqrt` over `ℚ`, `F32.sqrt`
  over binary32.  Theorems that need a fact about it say so in a hypothesis.

Pointers. A `BeybladeBody*` argument is an `Option`: `none` is the null
pointer.  The `RandomDistribution*` held by a `Layer` is a value of an
arbitrary type `ρ`.

Console output (`std::cout`, `printVec3`) is not modelled.
-/

namespace BattleBeyz

/-! ## `glm::vec3` -/

/-- Three-component vector, the model of `glm::vec3`. -/
@[ext]
structure Vec3 (α : Type) where
  x : α
  y : α
  z : α
deriving DecidableEq, Repr

namespace Vec3

variable {α : Type}

/-- The constructor `glm::vec3(s)`: all three components are `s`. -/
def splat (s : α) : Vec3 α := ⟨s, s, s⟩

/-- Componentwise `operator+`. -/
def add [Add α] (u v : Vec3 α) : Vec3 α := ⟨u.x + v.x, u.y + v.y, u.z + v.z⟩

/-- Componentwise `operator*` of two vectors. -/
def mul [Mul α] (u v : Vec3 α) : Vec3 α := ⟨u.x * v.x, u.y * v.y, u.z * v.z⟩

/-- Componentwise `operator/` of two vectors. -/
def div [Div α] (u v : Vec3 α) : Vec3 α := ⟨u.x / v.x, u.y / v.y, u.z / v.z⟩

/-- Unary `operator-`. -/
def neg [Neg α] (u : Vec3 α) : Vec3 α := ⟨-u.x, -u.y, -u.z⟩

/-- Componentwise binary `operator-`. -/
def sub [Sub α] (u v : Vec3 α) : Vec3 α := ⟨u.x - v.x, u.y - v.y, u.z - v.z⟩

/-- The product `v * s` of a vector and a scalar. -/
def scale [Mul α] (u : Vec3 α) (s : α) : Vec3 α := ⟨u.x * s, u.y * s, u.z * s⟩

instance [Add α] : Add (Vec3 α) := ⟨add⟩
instance [Mul α] : Mul (Vec3 α) := ⟨mul⟩
instance [Div α] : Div (Vec3 α) := ⟨div⟩
instance [Neg α] : Neg (Vec3 α) := ⟨neg⟩
instance [Sub α] : Sub (Vec3 α) := ⟨sub⟩
instance [Zero α] : Zero (Vec3 α) := ⟨splat 0⟩

/-- The function `glm::dot(u, v)`: the sum of the componentwise products. -/
def dot [Add α] [Mul α] (u v : Vec3 α) : α := u.x * v.x + u.y * v.y + u.z * v.z

/-- The function `glm::length(v) = sqrt(dot(v, v))`. -/
def length [Add α] [Mul α] (sqrt : α → α) (v : Vec3 α) : α := sqrt (dot v v)

/-- The function `glm::inversesqrt(s) = 1 / sqrt(s)`. -/
def inversesqrt [One α] [Div α] (sqrt : α → α) (s : α) : α := 1 / sqrt s

/-- The function `glm::normalize(v) = v * inversesqrt(dot(v, v))`. -/
def normalize [Add α] [Mul α] [One α] [Div α] (sqrt : α → α) (v : Vec3 α) : Vec3 α :=
  scale v (inversesqrt sqrt (dot v v))

end Vec3

/-- Modelled from the spec: `dv3` is declared in the header `BeybladeBody.h`,
which is not among the sources.  It turns a `double` into a `glm::vec3`;
the spec reads `accumulatedAcceleration * dv3(deltaTime)` as
`accumulatedAcceleration * deltaTime`, so it is the broadcast `glm::vec3(s)`. -/
def dv3 {α : Type} (s : α) : Vec3 α := Vec3.splat s

/-! ## `BeybladeParts.h` -/

/-- The struct `Layer`. -/
structure Layer (α ρ : Type) where
  radius : α
  height : α
  mass : α
  momentOfInertia : α
  rotationalDragCoefficient : α
  recoilDistribution : ρ
  coefficientOfRestitution : α

/-- The struct `Disc`. -/
structure Disc (α : Type) where
  radius : α
  height : α
  mass : α
  momentOfInertia : α
  rotationalDragCoefficient : α

/-- The struct `Driver`. -/
structure Driver (α : Type) where
  radius : α
  height : α
  mass : α
  momentOfInertia : α
  rotationalDragCoefficient : α
  coefficientOfFriction : α

/-- The default constructor `Layer()`; `dist` is the freshly allocated
`RandomDistribution(1, 0.25)`. -/
def Layer.default {α ρ : Type} [LinearOrderedField α] (dist : ρ) : Layer α ρ where
  radius := 0.025
  height := 0.01
  recoilDistribution := dist
  coefficientOfRestitution := 0.8
  rotationalDragCoefficient := 0.7 * 0.005
  mass := 0.03
  momentOfInertia := 0.5 * 0.03 * 0.025 * 0.025

/-- The default constructor `Disc()`. -/
def Disc.default {α : Type} [LinearOrderedField α] : Disc α where
  radius := 0.018
  height := 0.01
  mass := 0.025
  momentOfInertia := 0.7 * 0.025 * 0.018 * 0.018
  rotationalDragCoefficient := 0.1 * 0.005

/-- The default constructor `Driver()`. -/
def Driver.default {α : Type} [LinearOrderedField α] : Driver α where
  radius := 0.004
  height := 0.015
  mass := 0.005
  momentOfInertia := 0.5 * 0.005 * 0.004 * 0.0015
  rotationalDragCoefficient := 0.1 * 0.005
  coefficientOfFriction := 0.2

/-! ## `BeybladeBody` -/

/-- The data members of `BeybladeBody` that `BeybladeBody.cpp` reads or writes. -/
structure BeybladeBody (α ρ : Type) where
  layerRadius : α
  layerHeight : α
  discRadius : α
  discHeight : α
  driverRadius : α
  driverHeight : α
  recoilDistribution : ρ
  coefficientOfRestitution : α
  coefficientOfFriction : α
  mass : α
  momentOfInertia : α
  linearDragTerm : α
  angularDragTerm : α
  baseCenter : Vec3 α
  velocity : Vec3 α
  acceleration : Vec3 α
  angularVelocity : Vec3 α
  accumulatedVelocity : Vec3 α
  accumulatedAngularVelocity : Vec3 α
  accumulatedAcceleration : Vec3 α
  accumulatedAngularAcceleration : Vec3 α

/-- The members that the constructor's initialiser list does not mention.
Their initial values come from the class declaration in `BeybladeBody.h`,
which is not among the sources, so they are an argument of the constructor. -/
structure HeaderInit (α : Type) where
  baseCenter : Vec3 α
  angularVelocity : Vec3 α
  accumulatedVelocity : Vec3 α
  accumulatedAngularVelocity : Vec3 α
  accumulatedAcceleration : Vec3 α
  accumulatedAngularAcceleration : Vec3 α

/-- Every member left by the header is the zero vector. -/
def HeaderInit.zero {α : Type} [Zero α] : HeaderInit α := ⟨0, 0, 0, 0, 0, 0⟩

namespace BeybladeBody

variable {α ρ : Type}

/-- The constructor `BeybladeBody::BeybladeBody(Layer, Disc, Driver)`. -/
def new [LinearOrderedField α] (layer : Layer α ρ) (disc : Disc α) (driver : Driver α) (hdr : HeaderInit α) :
    BeybladeBody α ρ :=
  let layerRadius := layer.radius
  let layerHeight := layer.height
  let discRadius := disc.radius
  let discHeight := disc.height
  let driverRadius := driver.radius
  let driverHeight := driver.height
  let linearLayerCA : α := 0.9 * 2 * layerHeight * layerRadius
  let linearDiscCA : α := 0.9 * 2 * discHeight * discRadius
  let linearDriverCA : α := 0.9 * driverHeight * driverRadius
  let angularLayerCAr2 : α := layer.rotationalDragCoefficient * layerHeight * layerRadius * layerRadius
  let angularDiscCAr2 : α := disc.rotationalDragCoefficient * discHeight * discRadius * discRadius
  let angularDriverCAr2 : α :=
    driver.rotationalDragCoefficient * driverHeight * driverRadius * driverRadius
  { layerRadius := layerRadius
    layerHeight := layerHeight
    discRadius := discRadius
    discHeight := discHeight
    driverRadius := driverRadius
    driverHeight := driverHeight
    recoilDistribution := layer.recoilDistribution
    coefficientOfRestitution := 0.8
    coefficientOfFriction := 0.2
    mass := layer.mass + disc.mass + driver.mass
    velocity := Vec3.splat 0
    acceleration := Vec3.splat 0
    momentOfInertia := layer.momentOfInertia + disc.momentOfInertia + driver.momentOfInertia
    linearDragTerm := 0.5 * (linearLayerCA + linearDiscCA + linearDriverCA)
    angularDragTerm := 0.5 * (angularLayerCAr2 + angularDiscCAr2 + angularDriverCAr2)
    baseCenter := hdr.baseCenter
    angularVelocity := hdr.angularVelocity
    accumulatedVelocity := hdr.accumulatedVelocity
    accumulatedAngularVelocity := hdr.accumulatedAngularVelocity
    accumulatedAcceleration := hdr.accumulatedAcceleration
    accumulatedAngularAcceleration := hdr.accumulatedAngularAcceleration }

/-- The default constructor `BeybladeBody::BeybladeBody()`. -/
def newDefault [LinearOrderedField α] (dist : ρ) (hdr : HeaderInit α) : BeybladeBody α ρ :=
  new (Layer.default dist) Disc.default Driver.default hdr

/-- Modelled from the spec: the accessor `getCenter` is defined in
`BeybladeBody.h`, which is not among the sources; the spec lists it among the
plain accessors, for the center, which is `baseCenter`. -/
def getCenter (b : BeybladeBody α ρ) : Vec3 α := b.baseCenter

/-- Modelled from the spec: the plain accessor `getLayerHeight` of the missing
header `BeybladeBody.h`. -/
def getLayerHeight (b : BeybladeBody α ρ) : α := b.layerHeight

/-- Modelled from the spec: the plain accessor `getLayerRadius` of the missing
header `BeybladeBody.h`. -/
def getLayerRadius (b : BeybladeBody α ρ) : α := b.layerRadius

/-! ### Specialized getters -/

/-- The method `BeybladeBody::getNormal`. -/
def getNormal [Zero α] [One α] [Add α] [Mul α] [Div α] [Neg α] [LT α]
    [DecidableRel (fun a b : α => a < b)] (sqrt : α → α) (b : BeybladeBody α ρ) : Vec3 α :=
  let normalizedAngularVelocity := Vec3.normalize sqrt b.angularVelocity
  if normalizedAngularVelocity.y < 0 then -normalizedAngularVelocity
  else normalizedAngularVelocity

/-- The method `BeybladeBody::getBottomPosition`. -/
def getBottomPosition [Zero α] [One α] [Add α] [Mul α] [Div α] [Neg α] [LT α]
    [DecidableRel (fun a b : α => a < b)] (sqrt : α → α) (b : BeybladeBody α ρ) : Vec3 α :=
  let unitDown :=
    if b.angularVelocity.y < 0 then Vec3.normalize sqrt b.angularVelocity
    else -Vec3.normalize sqrt b.angularVelocity
  let tiltedDisplacement := dv3 (b.discHeight + b.driverHeight) * unitDown
  let bottomPosition := b.baseCenter + tiltedDisplacement
  bottomPosition

/-- The method `BeybladeBody::setInitialLaunch`. -/
def setInitialLaunch (b : BeybladeBody α ρ)
    (initialCenter initialVelocity initialAngularVelocity : Vec3 α) : BeybladeBody α ρ :=
  { b with
    baseCenter := initialCenter
    velocity := initialVelocity
    angularVelocity := initialAngularVelocity }

/-! ### Collision calculations -/

/-- The exception a method throws. -/
inductive Error where
  | invalid_argument (what : String)
deriving DecidableEq, Repr

/-- The local `lowerBey` of `distanceOverlap`: `aCenter.y < bCenter.y ? a : b`. -/
def lowerBey [LinearOrderedField α] (a b : BeybladeBody α ρ) : BeybladeBody α ρ :=
  if a.getCenter.y < b.getCenter.y then a else b

/-- The local `higherBey` of `distanceOverlap`: `lowerBey == a ? b : a`, a
comparison of pointers.  For two different objects `lowerBey == a` holds exactly
when `aCenter.y < bCenter.y`; when both pointers name one object, `a` and `b`
are the same body and either branch gives it. -/
def higherBey [LinearOrderedField α] (a b : BeybladeBody α ρ) : BeybladeBody α ρ :=
  if a.getCenter.y < b.getCenter.y then b else a

/-- The static method `BeybladeBody::distanceOverlap`.  `Except.error` is the
thrown exception, `Except.ok none` is `std::nullopt`. -/
def distanceOverlap [LinearOrderedField α] (sqrt : α → α) :
    Option (BeybladeBody α ρ) → Option (BeybladeBody α ρ) → Except Error (Option α)
  | some a, some b =>
    let aCenter := a.getCenter
    let bCenter := b.getCenter
    let lowerBey := lowerBey a b
    let higherBey := higherBey a b
    if lowerBey.getCenter.y + lowerBey.getLayerHeight < higherBey.getCenter.y then
      Except.ok none
    else
      let diffX := aCenter.x - bCenter.x
      let diffZ := aCenter.z - bCenter.z
      let squaredDistance := diffX * diffX + diffZ * diffZ
      let radiiSum := a.getLayerRadius + b.getLayerRadius
      let overlapDistance := radiiSum * radiiSum - squaredDistance
      if overlapDistance > 0 then Except.ok (some (sqrt overlapDistance))
      else Except.ok none
  | _, _ => Except.error (Error.invalid_argument "Null pointer created in Beyblade::inContact")

/-! ### Accumulators -/

/-- The method `BeybladeBody::accumulateVelocity`. -/
def accumulateVelocity [Add α] (b : BeybladeBody α ρ) (addedVelocity : Vec3 α) :
    BeybladeBody α ρ :=
  { b with accumulatedVelocity := b.accumulatedVelocity + addedVelocity }

/-- The method `BeybladeBody::accumulateAngularVelocity`. -/
def accumulateAngularVelocity [Add α] (b : BeybladeBody α ρ) (addedAngularVelocity : Vec3 α) :
    BeybladeBody α ρ :=
  { b with accumulatedAngularVelocity := b.accumulatedAngularVelocity + addedAngularVelocity }

/-- The method `BeybladeBody::accumulateAcceleration`: the accumulator is
assigned, the `+=` is commented out in the source. -/
def accumulateAcceleration (b : BeybladeBody α ρ) (addedAcceleration : Vec3 α) :
    BeybladeBody α ρ :=
  { b with accumulatedAcceleration := addedAcceleration }

/-- The method `BeybladeBody::accumulateAngularAcceleration`. -/
def accumulateAngularAcceleration [Add α] (b : BeybladeBody α ρ) (addedAngularAcceleration : Vec3 α) :
    BeybladeBody α ρ :=
  { b with
    accumulatedAngularAcceleration := b.accumulatedAngularAcceleration + addedAngularAcceleration }

/-! ### Updators -/

/-- The constant `std::numeric_limits<float>::epsilon()`, which is `2^-23`. -/
def floatEpsilon [One α] [Div α] [NatCast α] : α := 1 / ((2 ^ 23 : ℕ) : α)

/-- The method `BeybladeBody::accumulateAngularImpulseMagnitude`. -/
def accumulateAngularImpulseMagnitude [Zero α] [One α] [Add α] [Mul α] [Div α] [LT α]
    [DecidableRel (fun a b : α => a < b)] [NatCast α]
    (sqrt : α → α) (b : BeybladeBody α ρ) (magnitude : α) :
    BeybladeBody α ρ :=
  if Vec3.length sqrt b.angularVelocity < floatEpsilon then
    b.accumulateAngularVelocity ⟨magnitude, 0, 0⟩
  else
    let deltaAngularImpulse := dv3 magnitude * Vec3.normalize sqrt b.angularVelocity
    let deltaAngularVelocity := deltaAngularImpulse / dv3 b.momentOfInertia
    b.accumulateAngularVelocity deltaAngularVelocity

/-- The method `BeybladeBody::accumulateImpulseMagnitude`. -/
def accumulateImpulseMagnitude [Zero α] [One α] [Add α] [Mul α] [Div α] [LT α]
    [DecidableRel (fun a b : α => a < b)] [NatCast α]
    (sqrt : α → α) (b : BeybladeBody α ρ) (magnitude : α) :
    BeybladeBody α ρ :=
  if Vec3.length sqrt b.velocity < floatEpsilon then
    b.accumulateVelocity ⟨magnitude, 0, 0⟩
  else
    let deltaImpulse := dv3 magnitude * Vec3.normalize sqrt b.velocity
    let deltaVelocity := deltaImpulse / dv3 b.mass
    b.accumulateVelocity deltaVelocity

/-- The method `BeybladeBody::applyAccumulatedChanges`. -/
def applyAccumulatedChanges [Zero α] [Add α] [Mul α] (b : BeybladeBody α ρ) (deltaTime : α) :
    BeybladeBody α ρ :=
  let velocity := b.velocity + b.accumulatedVelocity
  let angularVelocity := b.angularVelocity + b.accumulatedAngularVelocity
  let velocity := velocity + b.accumulatedAcceleration * dv3 deltaTime
  let angularVelocity := angularVelocity + b.accumulatedAngularAcceleration * dv3 deltaTime
  { b with
    velocity := velocity
    angularVelocity := angularVelocity
    accumulatedVelocity := Vec3.splat 0
    accumulatedAngularVelocity := Vec3.splat 0
    accumulatedAcceleration := Vec3.splat 0
    accumulatedAngularAcceleration := Vec3.splat 0 }

/-- The method `BeybladeBody::update`. -/
def update [Add α] [Mul α] (b : BeybladeBody α ρ) (deltaTime : α) : BeybladeBody α ρ :=
  { b with baseCenter := b.baseCenter + b.velocity * dv3 deltaTime }

end BeybladeBody

/-! ## Contact geometry in the words of the specification -/

section SpecWords

variable {α ρ : Type} [LinearOrderedField α]

/-- The squared planar (x, z) distance between the centers of two bodies. -/
def squaredDistance (a b : BeybladeBody α ρ) : α :=
  (a.baseCenter.x - b.baseCenter.x) ^ 2 + (a.baseCenter.z - b.baseCenter.z) ^ 2

/-- The sum of the layer radii of two bodies. -/
def radiiSum (a b : BeybladeBody α ρ) : α := a.layerRadius + b.layerRadius

/-- The vertical pre-check of the specification: the top of the lower layer
lies strictly below the center of the higher body. -/
def verticallySeparated (a b : BeybladeBody α ρ) : Prop :=
  (BeybladeBody.lowerBey a b).baseCenter.y + (BeybladeBody.lowerBey a b).layerHeight
    < (BeybladeBody.higherBey a b).baseCenter.y

instance (a b : BeybladeBody α ρ) : Decidable (verticallySeparated a b) := by
  unfold verticallySeparated; infer_instance

end SpecWords

/-! ## Kinetic state -/

/-- The kinetic state of a body in the words of the specification: baseCenter,
velocity and angularVelocity. -/
def kineticState {α ρ : Type} (b : BeybladeBody α ρ) : Vec3 α × Vec3 α × Vec3 α :=
  (b.baseCenter, b.velocity, b.angularVelocity)

/-! ## The additive accumulate-phase calls -/

/-- One call of an additive accumulate-phase mutator with its argument: the
mutators whose accumulator is updated with `+=`. -/
inductive AdditiveCall (α : Type) where
  | velocity (addedVelocity : Vec3 α)
  | angularVelocity (addedAngularVelocity : Vec3 α)
  | angularAcceleration (addedAngularAcceleration : Vec3 α)
  | impulseMagnitude (magnitude : α)
  | angularImpulseMagnitude (magnitude : α)

/-- The body after the call `c`. -/
def AdditiveCall.run {α ρ : Type} [Zero α] [One α] [Add α] [Mul α] [Div α] [LT α]
    [DecidableRel (fun a b : α => a < b)] [NatCast α]
    (sqrt : α → α) (c : AdditiveCall α)
    (b : BeybladeBody α ρ) : BeybladeBody α ρ :=
  match c with
  | AdditiveCall.velocity v => b.accumulateVelocity v
  | AdditiveCall.angularVelocity w => b.accumulateAngularVelocity w
  | AdditiveCall.angularAcceleration a => b.accumulateAngularAcceleration a
  | AdditiveCall.impulseMagnitude m => b.accumulateImpulseMagnitude sqrt m
  | AdditiveCall.angularImpulseMagnitude m => b.accumulateAngularImpulseMagnitude sqrt m

/-! ## A concrete body over `ℚ` -/

/-- The default body launched at `center` with the given velocities. -/
def launched (center velocity angularVelocity : Vec3 ℚ) : BeybladeBody ℚ Unit :=
  (BeybladeBody.newDefault () HeaderInit.zero).setInitialLaunch center velocity angularVelocity

/-! ## Which accumulator a call writes -/

/-- Number of binary digits of `n`, by halving at most `fuel` times. -/
def bitLength : Nat → Nat → Nat
  | 0, _ => 0
  | fuel + 1, n => if n = 0 then 0 else bitLength fuel (n / 2) + 1

/-- Greedy integer square root: decides the bits of the root from position
`b - 1` down, keeping `r * r ≤ n`. -/
def isqrtAux (n : Nat) : Nat → Nat → Nat
  | 0, r => r
  | b + 1, r =>
    if (r + 2 ^ b) * (r + 2 ^ b) ≤ n then isqrtAux n b (r + 2 ^ b) else isqrtAux n b r

/-- The integer square root, the largest `r` with `r * r ≤ n`. -/
def isqrt (n : Nat) : Nat := isqrtAux n (bitLength 1024 n) 0

/-- A binary32 value: NaN, an infinity with its sign, or the finite value
`± k * 2^-149` (`2^-149` is the smallest subnormal; `k` has at most 24
significant bits and `k < 2^277`). -/
inductive F32 where
  | nan
  | inf (negative : Bool)
  | fin (negative : Bool) (k : Nat)
deriving DecidableEq, Repr

namespace F32

/-- Rounding to nearest, ties to even: the binary32 value nearest to the
non-negative rational `num / den`, counted in units of `2^-149`, with the given
sign.  A quotient of more than 24 bits is rounded to a multiple of
`2 ^ shift`; a result of `2^128` or more is an infinity. -/
def round (negative : Bool) (num den : Nat) : F32 :=
  let q := num / den
  let shift := bitLength 1024 q - 24
  let d := den * 2 ^ shift
  let m := num / d
  let r := num % d
  let m' := if d < 2 * r ∨ (2 * r = d ∧ m % 2 = 1) then m + 1 else m
  if 2 ^ 277 ≤ m' * 2 ^ shift then inf negative else fin negative (m' * 2 ^ shift)

/-- The binary32 value nearest to the rational `± n / d`. -/
def ofRatio (negative : Bool) (n d : Nat) : F32 := round negative (n * 2 ^ 149) d

/-- Unary minus: flips the sign bit. -/
def neg : F32 → F32
  | nan => nan
  | inf s => inf (!s)
  | fin s k => fin (!s) k

/-- Addition: the exact sum, rounded; an exact zero sum of opposite signs is `+0`. -/
def add : F32 → F32 → F32
  | nan, _ => nan
  | _, nan => nan
  | inf s, inf t => if s = t then inf s else nan
  | inf s, fin _ _ => inf s
  | fin _ _, inf t => inf t
  | fin s k, fin t l =>
    if s = t then round s (k + l) 1
    else if k = l then fin false 0
    else if l < k then round s (k - l) 1
    else round t (l - k) 1

/-- Multiplication: the exact product, rounded; the sign is the exclusive or. -/
def mul : F32 → F32 → F32
  | nan, _ => nan
  | _, nan => nan
  | inf s, inf t => inf (xor s t)
  | inf s, fin t l => if l = 0 then nan else inf (xor s t)
  | fin s k, inf t => if k = 0 then nan else inf (xor s t)
  | fin s k, fin t l => round (xor s t) (k * l) (2 ^ 149)

/-- Division: the exact quotient, rounded. -/
def div : F32 → F32 → F32
  | nan, _ => nan
  | _, nan => nan
  | inf _, inf _ => nan
  | inf s, fin t _ => inf (xor s t)
  | fin s _, inf t => fin (xor s t) 0
  | fin s k, fin t l =>
    if l = 0 then (if k = 0 then nan else inf (xor s t))
    else round (xor s t) (k * 2 ^ 149) l

/-- The comparison `<`: false when an operand is NaN, and `-0 < +0` is false. -/
def lt : F32 → F32 → Bool
  | nan, _ => false
  | _, nan => false
  | inf s, inf t => s && !t
  | inf s, fin _ _ => s
  | fin _ _, inf t => !t
  | fin s k, fin t l =>
    match s, t with
    | false, false => decide (k < l)
    | false, true => false
    | true, false => decide (0 < k ∨ 0 < l)
    | true, true => decide (l < k)

/-- The correctly rounded square root.  The integer root of `k * 2^149 * 2^64`
is the root in units of `2^-149` with 32 further bits; an inexact root is
marked by a trailing odd bit before rounding. -/
def sqrt : F32 → F32
  | nan => nan
  | inf s => if s then nan else inf false
  | fin s k =>
    if k = 0 then fin s 0
    else if s then nan
    else
      let n := k * 2 ^ 149 * 2 ^ 64
      let r := isqrt n
      round false (2 * r + (if r * r = n then 0 else 1)) (2 ^ 33)

instance : Zero F32 := ⟨fin false 0⟩
instance : One F32 := ⟨fin false (2 ^ 149)⟩
instance : Add F32 := ⟨add⟩
instance : Mul F32 := ⟨mul⟩
instance : Div F32 := ⟨div⟩
instance : Neg F32 := ⟨neg⟩
instance : Sub F32 := ⟨fun a b => add a (neg b)⟩
instance : LT F32 := ⟨fun a b => lt a b = true⟩
instance : NatCast F32 := ⟨fun n => ofRatio false n 1⟩

instance : DecidableRel (fun a b : F32 => a < b) :=
  fun a b => inferInstanceAs (Decidable (lt a b = true))

end F32

/-- A body over binary32: the body the constructor builds from a Layer, a Disc
and a Driver whose radii, masses, moments of inertia and drag coefficients are
zero and whose disc and driver heights are the given ones, with the given
center, angular velocity and accumulated velocity.  The two constants of the
initialiser list are `0.8` and `0.2` rounded to binary32; they and the other
`double` members are not read by `getNormal`, `getBottomPosition` and the
accumulate-phase mutators. -/
def floatBody (discHeight driverHeight : F32)
    (baseCenter angularVelocity accumulatedVelocity : Vec3 F32) : BeybladeBody F32 Unit where
  layerRadius := 0
  layerHeight := 0
  discRadius := 0
  discHeight := discHeight
  driverRadius := 0
  driverHeight := driverHeight
  recoilDistribution := ()
  coefficientOfRestitution := F32.ofRatio false 4 5
  coefficientOfFriction := F32.ofRatio false 1 5
  mass := 0
  momentOfInertia := 0
  linearDragTerm := 0
  angularDragTerm := 0
  baseCenter := baseCenter
  velocity := 0
  acceleration := 0
  angularVelocity := angularVelocity
  accumulatedVelocity := accumulatedVelocity
  accumulatedAngularVelocity := 0
  accumulatedAcceleration := 0
  accumulatedAngularAcceleration := 0

/-! ## Laws of signed arithmetic

The laws about sign that hold both in an ordered field and in IEEE 754
arithmetic.  Associativity, distributivity and cancellation are not among
them. -/

/-- Sign laws shared by exact and by floating-point arithmetic. -/
class SignedArith (α : Type) [Zero α] [Add α] [Sub α] [Mul α] [Neg α] [LT α] : Prop where
  neg_neg : ∀ x : α, - -x = x
  neg_mul : ∀ x y : α, -x * y = -(x * y)
  mul_neg : ∀ x y : α, x * -y = -(x * y)
  mul_comm : ∀ x y : α, x * y = y * x
  sub_eq_add_neg : ∀ x y : α, x - y = x + -y
  neg_not_lt_zero : ∀ x : α, x < 0 → ¬ (-x < 0)
  neg_lt_zero : ∀ x : α, 0 < x → -x < 0

/-- Every linearly ordered field has the sign laws. -/
instance signedArithOfField {α : Type} [LinearOrderedField α] : SignedArith α where
  neg_neg := neg_neg
  neg_mul := neg_mul
  mul_neg := mul_neg
  mul_comm := mul_comm
  sub_eq_add_neg := sub_eq_add_neg
  neg_not_lt_zero := fun _ h => not_lt.mpr (neg_nonneg.mpr h.le)
  neg_lt_zero := fun _ h => neg_lt_zero.mpr h

/-- Binary32 has the sign laws: the operations round the magnitude and set the
sign separately. -/
instance signedArithOfF32 : SignedArith F32 where
  neg_neg := by
    intro x
    cases x <;> simp [Neg.neg, F32.neg]
  neg_mul := by
    intro x y
    have hround : ∀ (s : Bool) (n d : Nat), F32.round (!s) n d = F32.neg (F32.round s n d) := by
      intro s n d
      unfold F32.round
      simp only
      split_ifs <;> rfl
    have hxor : ∀ s t : Bool, xor (!s) t = !(xor s t) := by decide
    cases x <;> cases y <;>
      simp only [Neg.neg, HMul.hMul, Mul.mul, F32.neg, F32.mul, hxor, hround] <;>
      split_ifs <;> rfl
  mul_neg := by
    intro x y
    have hround : ∀ (s : Bool) (n d : Nat), F32.round (!s) n d = F32.neg (F32.round s n d) := by
      intro s n d
      unfold F32.round
      simp only
      split_ifs <;> rfl
    have hxor : ∀ s t : Bool, xor s (!t) = !(xor s t) := by decide
    cases x <;> cases y <;>
      simp only [Neg.neg, HMul.hMul, Mul.mul, F32.neg, F32.mul, hxor, hround] <;>
      split_ifs <;> rfl
  mul_comm := by
    intro x y
    have hxor : ∀ s t : Bool, xor s t = xor t s := by decide
    change F32.mul x y = F32.mul y x
    cases x <;> cases y <;>
      simp only [F32.mul] <;>
      first
        | rfl
        | (rw [hxor, Nat.mul_comm])
        | (rw [hxor])
  sub_eq_add_neg := fun _ _ => rfl
  neg_not_lt_zero := by
    intro x h
    cases x with
    | nan => exact absurd h (by decide)
    | inf s =>
      cases s
      · exact absurd h (by decide)
      · decide
    | fin s k =>
      cases s
      · change F32.lt (F32.fin false k) (F32.fin false 0) = true at h
        simp [F32.lt] at h
      · change ¬ (F32.lt (F32.fin false k) (F32.fin false 0) = true)
        simp [F32.lt]
  neg_lt_zero := by
    intro x h
    cases x with
    | nan => exact absurd h (by decide)
    | inf s =>
      cases s
      · decide
      · exact absurd h (by decide)
    | fin s k =>
      cases s
      · change F32.lt (F32.fin false 0) (F32.fin false k) = true at h
        change F32.lt (F32.fin true k) (F32.fin false 0) = true
        simp [F32.lt] at h ⊢
        exact h
      · change F32.lt (F32.fin false 0) (F32.fin true k) = true at h
        simp [F32.lt] at h

/-! ## Vector algebra -/

namespace Vec3

variable {α : Type}

@[simp] theorem add_x [Add α] (u v : Vec3 α) : (u + v).x = u.x + v.x := rfl
@[simp] theorem add_y [Add α] (u v : Vec3 α) : (u + v).y = u.y + v.y := rfl
@[simp] theorem add_z [Add α] (u v : Vec3 α) : (u + v).z = u.z + v.z := rfl
@[simp] theorem mul_x [Mul α] (u v : Vec3 α) : (u * v).x = u.x * v.x := rfl
@[simp] theorem mul_y [Mul α] (u v : Vec3 α) : (u * v).y = u.y * v.y := rfl
@[simp] theorem mul_z [Mul α] (u v : Vec3 α) : (u * v).z = u.z * v.z := rfl
@[simp] theorem sub_x [Sub α] (u v : Vec3 α) : (u - v).x = u.x - v.x := rfl
@[simp] theorem sub_y [Sub α] (u v : Vec3 α) : (u - v).y = u.y - v.y := rfl
@[simp] theorem sub_z [Sub α] (u v : Vec3 α) : (u - v).z = u.z - v.z := rfl
@[simp] theorem neg_x [Neg α] (u : Vec3 α) : (-u).x = -u.x := rfl
@[simp] theorem neg_y [Neg α] (u : Vec3 α) : (-u).y = -u.y := rfl
@[simp] theorem neg_z [Neg α] (u : Vec3 α) : (-u).z = -u.z := rfl
@[simp] theorem zero_x [Zero α] : (0 : Vec3 α).x = 0 := rfl
@[simp] theorem zero_y [Zero α] : (0 : Vec3 α).y = 0 := rfl
@[simp] theorem zero_z [Zero α] : (0 : Vec3 α).z = 0 := rfl
@[simp] theorem scale_x [Mul α] (u : Vec3 α) (s : α) : (scale u s).x = u.x * s := rfl
@[simp] theorem scale_y [Mul α] (u : Vec3 α) (s : α) : (scale u s).y = u.y * s := rfl
@[simp] theorem scale_z [Mul α] (u : Vec3 α) (s : α) : (scale u s).z = u.z * s := rfl

theorem splat_zero [Zero α] : splat (0 : α) = 0 := rfl

/-- Adding to the zero vector. -/
theorem zero_add_vec [AddZeroClass α] (v : Vec3 α) : 0 + v = v := by
  ext <;> simp

end Vec3

/-! ## Construction -/

/-- Claim C1: for every Layer, Disc and Driver the constructed body has mass
`layer.mass + disc.mass + driver.mass` and moment of inertia
`layer.momentOfInertia + disc.momentOfInertia + driver.momentOfInertia`. -/
theorem new_mass_momentOfInertia {α ρ : Type} [LinearOrderedField α]
    (layer : Layer α ρ) (disc : Disc α) (driver : Driver α) (hdr : HeaderInit α) :
    (BeybladeBody.new layer disc driver hdr).mass = layer.mass + disc.mass + driver.mass ∧
    (BeybladeBody.new layer disc driver hdr).momentOfInertia
      = layer.momentOfInertia + disc.momentOfInertia + driver.momentOfInertia :=
  ⟨rfl, rfl⟩

/-! ## Accumulation and commit -/

/-- Claim C2: `applyAccumulatedChanges(deltaTime)` sets velocity to
`velocity + accumulatedVelocity + accumulatedAcceleration * deltaTime`, sets
angularVelocity to `angularVelocity + accumulatedAngularVelocity +
accumulatedAngularAcceleration * deltaTime` (old values on the right) and
leaves baseCenter unchanged. -/
theorem applyAccumulatedChanges_kinetic {α ρ : Type} [LinearOrderedField α]
    (b : BeybladeBody α ρ) (deltaTime : α) :
    (b.applyAccumulatedChanges deltaTime).velocity
      = b.velocity + b.accumulatedVelocity + Vec3.scale b.accumulatedAcceleration deltaTime ∧
    (b.applyAccumulatedChanges deltaTime).angularVelocity
      = b.angularVelocity + b.accumulatedAngularVelocity
          + Vec3.scale b.accumulatedAngularAcceleration deltaTime ∧
    (b.applyAccumulatedChanges deltaTime).baseCenter = b.baseCenter :=
  ⟨rfl, rfl, rfl⟩

/-- Claim C3: after `applyAccumulatedChanges(deltaTime)` all four accumulators
are the zero vector. -/
theorem applyAccumulatedChanges_resets {α ρ : Type} [LinearOrderedField α]
    (b : BeybladeBody α ρ) (deltaTime : α) :
    (b.applyAccumulatedChanges deltaTime).accumulatedVelocity = 0 ∧
    (b.applyAccumulatedChanges deltaTime).accumulatedAngularVelocity = 0 ∧
    (b.applyAccumulatedChanges deltaTime).accumulatedAcceleration = 0 ∧
    (b.applyAccumulatedChanges deltaTime).accumulatedAngularAcceleration = 0 :=
  ⟨rfl, rfl, rfl, rfl⟩

/-- Claim C4: `accumulateAcceleration(a1)`, then `accumulateAcceleration(a2)`,
then `applyAccumulatedChanges(dt)` gives velocity
`velocity + accumulatedVelocity + a2 * dt`; the result is the same for any
other `a1` and any other previous content of `accumulatedAcceleration`. -/
theorem accumulateAcceleration_overwrites {α ρ : Type} [LinearOrderedField α]
    (b : BeybladeBody α ρ) (a1 a2 : Vec3 α) (dt : α) :
    (((b.accumulateAcceleration a1).accumulateAcceleration a2).applyAccumulatedChanges dt).velocity
      = b.velocity + b.accumulatedVelocity + Vec3.scale a2 dt ∧
    ∀ (a1' : Vec3 α) (previous : Vec3 α),
      (((BeybladeBody.accumulateAcceleration { b with accumulatedAcceleration := previous }
            a1').accumulateAcceleration a2).applyAccumulatedChanges dt).velocity
        = (((b.accumulateAcceleration a1).accumulateAcceleration a2).applyAccumulatedChanges
            dt).velocity :=
  ⟨rfl, fun _ _ => rfl⟩

/-- Claim C5: on a body whose accumulatedVelocity is zero,
`accumulateVelocity(v1)`, `accumulateVelocity(v2)`, `applyAccumulatedChanges(dt)`
changes velocity by exactly `v1 + v2` plus `accumulatedAcceleration * dt`. -/
theorem accumulateVelocity_twice_commit {α ρ : Type} [LinearOrderedField α]
    (b : BeybladeBody α ρ) (v1 v2 : Vec3 α) (dt : α) (h : b.accumulatedVelocity = 0) :
    (((b.accumulateVelocity v1).accumulateVelocity v2).applyAccumulatedChanges dt).velocity
      = b.velocity + (v1 + v2) + Vec3.scale b.accumulatedAcceleration dt := by
  show b.velocity + (b.accumulatedVelocity + v1 + v2) + b.accumulatedAcceleration * dv3 dt = _
  rw [h, Vec3.zero_add_vec]
  rfl

/-- Witness of `accumulateVelocity_twice_commit` on the default body launched
with velocity `(1, 0, 0)`, for `v1 = (1, 2, 3)`, `v2 = (4, 5, 6)`, `dt = 1/2`. -/
theorem accumulateVelocity_twice_commit_witness :
    (launched 0 ⟨1, 0, 0⟩ ⟨0, 1, 0⟩).accumulatedVelocity = 0 ∧
    ((((launched 0 ⟨1, 0, 0⟩ ⟨0, 1, 0⟩).accumulateVelocity ⟨1, 2, 3⟩).accumulateVelocity
        ⟨4, 5, 6⟩).applyAccumulatedChanges (1 / 2)).velocity
      = (launched 0 ⟨1, 0, 0⟩ ⟨0, 1, 0⟩).velocity + ((⟨1, 2, 3⟩ : Vec3 ℚ) + ⟨4, 5, 6⟩)
          + Vec3.scale (launched 0 ⟨1, 0, 0⟩ ⟨0, 1, 0⟩).accumulatedAcceleration (1 / 2) :=
  ⟨rfl, accumulateVelocity_twice_commit _ _ _ _ rfl⟩

/-! ## Contact geometry -/

/-- The square root of `ℚ` inverts squaring on the non-negative rationals. -/
theorem rat_sqrt_mul_self (x : ℚ) (hx : 0 ≤ x) : Rat.sqrt (x * x) = x := by
  rw [Rat.sqrt_eq, abs_of_nonneg hx]

/-- The value of `distanceOverlap` on two bodies, with its two tests in the
words of the specification. -/
theorem distanceOverlap_some_some {α ρ : Type} [LinearOrderedField α] (sqrt : α → α)
    (a b : BeybladeBody α ρ) :
    BeybladeBody.distanceOverlap sqrt (some a) (some b)
      = Except.ok
          (if ¬ verticallySeparated a b ∧ 0 < radiiSum a b ^ 2 - squaredDistance a b then
            some (sqrt (radiiSum a b ^ 2 - squaredDistance a b))
          else none) := by
  have hsq : (a.layerRadius + b.layerRadius) * (a.layerRadius + b.layerRadius)
      - ((a.baseCenter.x - b.baseCenter.x) * (a.baseCenter.x - b.baseCenter.x)
        + (a.baseCenter.z - b.baseCenter.z) * (a.baseCenter.z - b.baseCenter.z))
      = radiiSum a b ^ 2 - squaredDistance a b := by
    simp only [radiiSum, squaredDistance]; ring
  simp only [BeybladeBody.distanceOverlap, BeybladeBody.getCenter, BeybladeBody.getLayerHeight,
    BeybladeBody.getLayerRadius, gt_iff_lt, hsq]
  by_cases hv : verticallySeparated a b
  · have hv' := hv
    unfold verticallySeparated at hv'
    simp [hv, hv']
  · have hv' := hv
    unfold verticallySeparated at hv'
    simp only [hv, hv', if_false, not_false_eq_true, true_and]
    by_cases ho : 0 < radiiSum a b ^ 2 - squaredDistance a b <;> simp [ho]

/-- Claim C6: let `lower` and `higher` be the two non-null bodies `a`, `b`
chosen by center y, `lower.baseCenter.y ≤ higher.baseCenter.y` (on equal
center y the second argument is the lower one, as in the source; either choice
when both layer heights are non-negative).  Then `distanceOverlap(a, b)`
returns a present value exactly when
NOT `lower.center.y + lower.layerHeight < higher.center.y` and
`radiiSum^2 - squaredDistance > 0`; the present value is
`sqrt(radiiSum^2 - squaredDistance)`; in every other case the result is
absent. -/
theorem distanceOverlap_present_iff {α ρ : Type} [LinearOrderedField α] (sqrt : α → α)
    (a b lower higher : BeybladeBody α ρ)
    (hpair : (lower = a ∧ higher = b) ∨ (lower = b ∧ higher = a))
    (hy : lower.baseCenter.y ≤ higher.baseCenter.y)
    (htie : lower.baseCenter.y = higher.baseCenter.y →
      (lower = b ∧ higher = a) ∨ (0 ≤ a.layerHeight ∧ 0 ≤ b.layerHeight)) :
    ((∃ d, BeybladeBody.distanceOverlap sqrt (some a) (some b) = Except.ok (some d)) ↔
      (¬ (lower.baseCenter.y + lower.layerHeight < higher.baseCenter.y) ∧
        radiiSum a b ^ 2 - squaredDistance a b > 0)) ∧
    ((BeybladeBody.distanceOverlap sqrt (some a) (some b)
        = Except.ok (some (sqrt (radiiSum a b ^ 2 - squaredDistance a b)))) ↔
      (¬ (lower.baseCenter.y + lower.layerHeight < higher.baseCenter.y) ∧
        radiiSum a b ^ 2 - squaredDistance a b > 0)) ∧
    ((BeybladeBody.distanceOverlap sqrt (some a) (some b) = Except.ok none) ↔
      ¬ (¬ (lower.baseCenter.y + lower.layerHeight < higher.baseCenter.y) ∧
        radiiSum a b ^ 2 - squaredDistance a b > 0)) := by
  have hsep : (lower.baseCenter.y + lower.layerHeight < higher.baseCenter.y)
      ↔ verticallySeparated a b := by
    unfold verticallySeparated BeybladeBody.lowerBey BeybladeBody.higherBey
      BeybladeBody.getCenter
    rcases hpair with ⟨hl, hh⟩ | ⟨hl, hh⟩
    · subst hl hh
      rcases hy.lt_or_eq with hlt | heq
      · rw [if_pos hlt, if_pos hlt]
      · have hnlt : ¬ lower.baseCenter.y < higher.baseCenter.y := by
          rw [heq]; exact lt_irrefl _
        rw [if_neg hnlt, if_neg hnlt]
        rcases htie heq with ⟨hab, _⟩ | ⟨hha, hhb⟩
        · rw [← hab]
        · constructor
          · intro h
            exfalso
            linarith
          · intro h
            exfalso
            linarith
    · subst hl hh
      have hnlt : ¬ higher.baseCenter.y < lower.baseCenter.y := not_lt.mpr hy
      rw [if_neg hnlt, if_neg hnlt]
  rw [hsep, distanceOverlap_some_some]
  by_cases h : ¬ verticallySeparated a b ∧ 0 < radiiSum a b ^ 2 - squaredDistance a b
  · simp [h]
  · simp [h]

/-- Witness of `distanceOverlap_present_iff`: the default body `a` at
`(0, 0, 0)` and the default body `b` at `(0.03, 0.005, 0)`; `a` has the smaller
center y, its layer top `0.01` is not below `0.005`, and
`0.05^2 - 0.03^2 = 0.0016 > 0`: the bodies are in contact with the depth
`sqrt(radiiSum^2 - squaredDistance)`. -/
theorem distanceOverlap_present_iff_witness :
    (launched ⟨0, 0, 0⟩ 0 ⟨0, 1, 0⟩).baseCenter.y
      ≤ (launched ⟨0.03, 0.005, 0⟩ 0 ⟨0, 1, 0⟩).baseCenter.y ∧
    BeybladeBody.distanceOverlap Rat.sqrt
        (some (launched ⟨0, 0, 0⟩ 0 ⟨0, 1, 0⟩)) (some (launched ⟨0.03, 0.005, 0⟩ 0 ⟨0, 1, 0⟩))
      = Except.ok (some (Rat.sqrt
          (radiiSum (launched ⟨0, 0, 0⟩ 0 ⟨0, 1, 0⟩) (launched ⟨0.03, 0.005, 0⟩ 0 ⟨0, 1, 0⟩) ^ 2
            - squaredDistance (launched ⟨0, 0, 0⟩ 0 ⟨0, 1, 0⟩)
                (launched ⟨0.03, 0.005, 0⟩ 0 ⟨0, 1, 0⟩)))) :=
  have hy : (launched ⟨0, 0, 0⟩ 0 ⟨0, 1, 0⟩).baseCenter.y
      ≤ (launched ⟨0.03, 0.005, 0⟩ 0 ⟨0, 1, 0⟩).baseCenter.y := by
    norm_num [launched, BeybladeBody.setInitialLaunch]
  ⟨hy, (distanceOverlap_present_iff Rat.sqrt (launched ⟨0, 0, 0⟩ 0 ⟨0, 1, 0⟩)
      (launched ⟨0.03, 0.005, 0⟩ 0 ⟨0, 1, 0⟩) (launched ⟨0, 0, 0⟩ 0 ⟨0, 1, 0⟩)
      (launched ⟨0.03, 0.005, 0⟩ 0 ⟨0, 1, 0⟩) (Or.inl ⟨rfl, rfl⟩) hy
      (fun h => by norm_num [launched, BeybladeBody.setInitialLaunch] at h)).2.1.mpr
    (by
      constructor
      · norm_num [launched, BeybladeBody.setInitialLaunch, BeybladeBody.newDefault,
          BeybladeBody.new, Layer.default]
      · norm_num [radiiSum, squaredDistance, launched, BeybladeBody.setInitialLaunch,
          BeybladeBody.newDefault, BeybladeBody.new, Layer.default])⟩

/-- Claim C7: two non-null bodies with positive layer radii, equal center x
and z, and vertically overlapping layers are in contact, with depth exactly
`a.layerRadius + b.layerRadius`; the square root is exact on squares. -/
theorem distanceOverlap_coincident {α ρ : Type} [LinearOrderedField α] (sqrt : α → α)
    (a b : BeybladeBody α ρ)
    (hsqrt : ∀ x : α, 0 ≤ x → sqrt (x * x) = x)
    (hra : 0 < a.layerRadius) (hrb : 0 < b.layerRadius)
    (hx : a.baseCenter.x = b.baseCenter.x) (hz : a.baseCenter.z = b.baseCenter.z)
    (hv : (BeybladeBody.lowerBey a b).baseCenter.y + (BeybladeBody.lowerBey a b).layerHeight
      ≥ (BeybladeBody.higherBey a b).baseCenter.y) :
    BeybladeBody.distanceOverlap sqrt (some a) (some b)
      = Except.ok (some (a.layerRadius + b.layerRadius)) := by
  have hr : 0 < a.layerRadius + b.layerRadius := add_pos hra hrb
  have hval : radiiSum a b ^ 2 - squaredDistance a b
      = (a.layerRadius + b.layerRadius) * (a.layerRadius + b.layerRadius) := by
    simp only [radiiSum, squaredDistance, hx, hz]; ring
  have hpos : 0 < radiiSum a b ^ 2 - squaredDistance a b := by
    rw [hval]; exact mul_pos hr hr
  have hns : ¬ verticallySeparated a b := not_lt.mpr hv
  rw [distanceOverlap_some_some, if_pos ⟨hns, hpos⟩, hval, hsqrt _ hr.le]

/-- Witness of `distanceOverlap_coincident`: two default bodies launched at the
same center, with `Rat.sqrt`; the depth is `0.025 + 0.025`. -/
theorem distanceOverlap_coincident_witness :
    BeybladeBody.distanceOverlap Rat.sqrt
        (some (launched ⟨1, 0, 2⟩ 0 ⟨0, 1, 0⟩)) (some (launched ⟨1, 0, 2⟩ 0 ⟨0, -1, 0⟩))
      = Except.ok (some ((launched ⟨1, 0, 2⟩ 0 ⟨0, 1, 0⟩).layerRadius
          + (launched ⟨1, 0, 2⟩ 0 ⟨0, -1, 0⟩).layerRadius)) :=
  distanceOverlap_coincident Rat.sqrt _ _ rat_sqrt_mul_self
    (by norm_num [launched, BeybladeBody.setInitialLaunch, BeybladeBody.newDefault,
      BeybladeBody.new, Layer.default])
    (by norm_num [launched, BeybladeBody.setInitialLaunch, BeybladeBody.newDefault,
      BeybladeBody.new, Layer.default])
    rfl rfl
    (by norm_num [launched, BeybladeBody.setInitialLaunch, BeybladeBody.newDefault,
      BeybladeBody.new, Layer.default, BeybladeBody.lowerBey, BeybladeBody.higherBey,
      BeybladeBody.getCenter])

/-- Claim C8: when the lower body's center y plus its layer height is strictly
less than the higher body's center y, `distanceOverlap` returns absent,
whatever the x/z positions and the layer radii. -/
theorem distanceOverlap_vertical_reject {α ρ : Type} [LinearOrderedField α] (sqrt : α → α)
    (a b : BeybladeBody α ρ)
    (hv : (BeybladeBody.lowerBey a b).baseCenter.y + (BeybladeBody.lowerBey a b).layerHeight
      < (BeybladeBody.higherBey a b).baseCenter.y) :
    BeybladeBody.distanceOverlap sqrt (some a) (some b) = Except.ok none := by
  have hs : verticallySeparated a b := hv
  rw [distanceOverlap_some_some]
  simp [hs]

/-- Witness of `distanceOverlap_vertical_reject`: two default bodies (layer
height `0.01`) with the same x and z, one at height `0` and one at height `1`. -/
theorem distanceOverlap_vertical_reject_witness :
    BeybladeBody.distanceOverlap Rat.sqrt
        (some (launched ⟨0, 1, 0⟩ 0 ⟨0, 1, 0⟩)) (some (launched ⟨0, 0, 0⟩ 0 ⟨0, 1, 0⟩))
      = Except.ok none :=
  distanceOverlap_vertical_reject Rat.sqrt _ _
    (by norm_num [launched, BeybladeBody.setInitialLaunch, BeybladeBody.newDefault,
      BeybladeBody.new, Layer.default, BeybladeBody.lowerBey, BeybladeBody.higherBey,
      BeybladeBody.getCenter])

/-- Claim C9: `distanceOverlap(a, b)` throws the invalid-argument error exactly
when `a` or `b` is null, and returns a value (contact or no contact) exactly
when both are present. -/
theorem distanceOverlap_error_iff {α ρ : Type} [LinearOrderedField α] (sqrt : α → α)
    (a b : Option (BeybladeBody α ρ)) :
    ((BeybladeBody.distanceOverlap sqrt a b
        = Except.error (BeybladeBody.Error.invalid_argument
            "Null pointer created in Beyblade::inContact")) ↔ (a = none ∨ b = none)) ∧
    ((∃ e, BeybladeBody.distanceOverlap sqrt a b = Except.error e) ↔ (a = none ∨ b = none)) ∧
    ((∃ r, BeybladeBody.distanceOverlap sqrt a b = Except.ok r) ↔ (a ≠ none ∧ b ≠ none)) := by
  cases a with
  | none => simp [BeybladeBody.distanceOverlap]
  | some a =>
    cases b with
    | none => simp [BeybladeBody.distanceOverlap]
    | some b => simp [distanceOverlap_some_some]

/-! ## Specialized getters -/

/-- A non-zero vector has a positive squared length. -/
theorem Vec3.dot_self_pos {α : Type} [LinearOrderedField α] (w : Vec3 α) (hw : w ≠ 0) :
    0 < Vec3.dot w w := by
  have h0 : 0 ≤ Vec3.dot w w := by
    unfold Vec3.dot
    nlinarith [mul_self_nonneg w.x, mul_self_nonneg w.y, mul_self_nonneg w.z]
  rcases h0.lt_or_eq with h | h
  · exact h
  · exfalso
    apply hw
    unfold Vec3.dot at h
    have hx : w.x * w.x = 0 := by
      nlinarith [mul_self_nonneg w.x, mul_self_nonneg w.y, mul_self_nonneg w.z]
    have hy : w.y * w.y = 0 := by
      nlinarith [mul_self_nonneg w.x, mul_self_nonneg w.y, mul_self_nonneg w.z]
    have hz : w.z * w.z = 0 := by
      nlinarith [mul_self_nonneg w.x, mul_self_nonneg w.y, mul_self_nonneg w.z]
    ext
    · simpa using hx
    · simpa using hy
    · simpa using hz

/-- The square root of the squared length of a non-zero vector, when that
squared length is a square and the square root is exact on squares: it is
positive and squares to the squared length. -/
theorem Vec3.sqrt_dot_self {α : Type} [LinearOrderedField α] (sqrt : α → α)
    (hsqrt : ∀ x : α, 0 ≤ x → sqrt (x * x) = x) (w : Vec3 α) (hw : w ≠ 0)
    (hsq : ∃ r : α, r * r = Vec3.dot w w) :
    0 < sqrt (Vec3.dot w w) ∧ sqrt (Vec3.dot w w) * sqrt (Vec3.dot w w) = Vec3.dot w w := by
  obtain ⟨r, hr⟩ := hsq
  have hpos := Vec3.dot_self_pos w hw
  have habs : |r| * |r| = Vec3.dot w w := by rw [abs_mul_abs_self, hr]
  have hs : sqrt (Vec3.dot w w) = |r| := by
    rw [← habs]; exact hsqrt _ (abs_nonneg r)
  have hr0 : r ≠ 0 := by
    rintro rfl
    simp at hr
    exact absurd hr.symm hpos.ne'
  rw [hs]
  exact ⟨abs_pos.mpr hr0, habs⟩

/-- The body of `getNormal` with its local variable substituted. -/
theorem getNormal_eq {α ρ : Type} [Zero α] [One α] [Add α] [Mul α] [Div α] [Neg α] [LT α]
    [DecidableRel (fun a b : α => a < b)] (sqrt : α → α) (b : BeybladeBody α ρ) :
    b.getNormal sqrt
      = if (Vec3.normalize sqrt b.angularVelocity).y < 0 then
          -Vec3.normalize sqrt b.angularVelocity
        else Vec3.normalize sqrt b.angularVelocity := rfl

/-- Exact arithmetic only: in an ordered field, with a square root exact on
squares and the squared length of angularVelocity a square, `getNormal()` of a
non-zero angularVelocity has Euclidean length 1, is a non-zero multiple of
angularVelocity and has a non-negative y component.  The proof uses the field
laws; it says nothing about the binary32 arithmetic of `glm::vec3`. -/
theorem getNormal_unit_parallel_up_exact {α ρ : Type} [LinearOrderedField α] (sqrt : α → α)
    (b : BeybladeBody α ρ)
    (hsqrt : ∀ x : α, 0 ≤ x → sqrt (x * x) = x)
    (hw : b.angularVelocity ≠ 0)
    (hsq : ∃ r : α, r * r = Vec3.dot b.angularVelocity b.angularVelocity) :
    Vec3.length sqrt (b.getNormal sqrt) = 1 ∧
    Vec3.dot (b.getNormal sqrt) (b.getNormal sqrt) = 1 ∧
    (∃ c : α, c ≠ 0 ∧ b.getNormal sqrt = Vec3.scale b.angularVelocity c) ∧
    0 ≤ (b.getNormal sqrt).y := by
  obtain ⟨hpos, hmul⟩ := Vec3.sqrt_dot_self sqrt hsqrt b.angularVelocity hw hsq
  set w := b.angularVelocity with hwdef
  set s := sqrt (Vec3.dot w w) with hsdef
  have hs0 : s ≠ 0 := hpos.ne'
  have hone : sqrt (1 : α) = 1 := by
    have := hsqrt 1 zero_le_one
    simpa using this
  have hdot : Vec3.dot (b.getNormal sqrt) (b.getNormal sqrt) = 1 := by
    rw [getNormal_eq]
    unfold Vec3.normalize Vec3.inversesqrt
    rw [← hwdef, ← hsdef]
    have key : w.x * (1 / s) * (w.x * (1 / s)) + w.y * (1 / s) * (w.y * (1 / s))
        + w.z * (1 / s) * (w.z * (1 / s)) = 1 := by
      have : w.x * w.x + w.y * w.y + w.z * w.z = s * s := hmul.symm
      field_simp
      linear_combination this
    split_ifs
    · simp only [Vec3.dot, Vec3.neg_x, Vec3.neg_y, Vec3.neg_z, Vec3.scale_x, Vec3.scale_y,
        Vec3.scale_z, neg_mul_neg]
      exact key
    · simp only [Vec3.dot, Vec3.scale_x, Vec3.scale_y, Vec3.scale_z]
      exact key
  refine ⟨?_, hdot, ?_, ?_⟩
  · unfold Vec3.length
    rw [hdot, hone]
  · rw [getNormal_eq]
    unfold Vec3.normalize Vec3.inversesqrt
    rw [← hwdef, ← hsdef]
    split_ifs
    · refine ⟨-(1 / s), by simpa using hs0, ?_⟩
      ext <;> simp
    · exact ⟨1 / s, by simpa using hs0, rfl⟩
  · rw [getNormal_eq]
    split_ifs with h
    · simp only [Vec3.neg_y]
      exact (neg_pos.mpr h).le
    · exact not_lt.mp h

/-- The exact-arithmetic statement at angular velocity `(3, -4, 0)`, of length
`5`, over `ℚ`; the normal is flipped. -/
theorem getNormal_unit_parallel_up_exact_at :
    Vec3.length Rat.sqrt ((launched 0 0 ⟨3, -4, 0⟩).getNormal Rat.sqrt) = 1 ∧
    Vec3.dot ((launched 0 0 ⟨3, -4, 0⟩).getNormal Rat.sqrt)
      ((launched 0 0 ⟨3, -4, 0⟩).getNormal Rat.sqrt) = 1 ∧
    (∃ c : ℚ, c ≠ 0 ∧ (launched 0 0 ⟨3, -4, 0⟩).getNormal Rat.sqrt
      = Vec3.scale (launched 0 0 ⟨3, -4, 0⟩).angularVelocity c) ∧
    0 ≤ ((launched 0 0 ⟨3, -4, 0⟩).getNormal Rat.sqrt).y :=
  getNormal_unit_parallel_up_exact Rat.sqrt _ rat_sqrt_mul_self
    (by
      intro h
      have hx := congrArg Vec3.x h
      norm_num [launched, BeybladeBody.setInitialLaunch] at hx)
    ⟨5, by norm_num [launched, BeybladeBody.setInitialLaunch, Vec3.dot]⟩

/-- The body of `getBottomPosition` with its local variables substituted. -/
theorem getBottomPosition_eq {α ρ : Type} [Zero α] [One α] [Add α] [Mul α] [Div α] [Neg α] [LT α]
    [DecidableRel (fun a b : α => a < b)] (sqrt : α → α)
    (b : BeybladeBody α ρ) :
    b.getBottomPosition sqrt
      = b.baseCenter + dv3 (b.discHeight + b.driverHeight)
          * (if b.angularVelocity.y < 0 then Vec3.normalize sqrt b.angularVelocity
             else -Vec3.normalize sqrt b.angularVelocity) := rfl

/-- With a positive length `s`, the y component of `normalize w` is negative
exactly when the y component of `w` is. -/
theorem Vec3.normalize_y_neg_iff {α : Type} [LinearOrderedField α] (sqrt : α → α) (w : Vec3 α)
    (hpos : 0 < sqrt (Vec3.dot w w)) :
    (Vec3.normalize sqrt w).y < 0 ↔ w.y < 0 := by
  have hinv : 0 < 1 / sqrt (Vec3.dot w w) := one_div_pos.mpr hpos
  show w.y * (1 / sqrt (Vec3.dot w w)) < 0 ↔ w.y < 0
  constructor
  · intro h
    by_contra hn
    exact absurd h (not_lt.mpr (mul_nonneg (not_lt.mp hn) hinv.le))
  · intro h
    exact mul_neg_of_neg_of_pos h hinv

/-- Exact arithmetic only: in an ordered field, for a non-zero angularVelocity
whose length `sqrt(dot w w)` is positive, `getBottomPosition()` is
`baseCenter - (discHeight + driverHeight) * getNormal()`.  The proof uses that
a positive scaling keeps the sign of y, which binary32 underflow breaks. -/
theorem getBottomPosition_eq_sub_normal_exact {α ρ : Type} [LinearOrderedField α] (sqrt : α → α)
    (b : BeybladeBody α ρ)
    (hw : b.angularVelocity ≠ 0)
    (hpos : 0 < sqrt (Vec3.dot b.angularVelocity b.angularVelocity)) :
    b.getBottomPosition sqrt
      = b.baseCenter - Vec3.scale (b.getNormal sqrt) (b.discHeight + b.driverHeight) := by
  have _hw := hw
  rw [getBottomPosition_eq, getNormal_eq]
  have hiff := Vec3.normalize_y_neg_iff sqrt b.angularVelocity hpos
  by_cases hy : b.angularVelocity.y < 0
  · rw [if_pos hy, if_pos (hiff.mpr hy)]
    apply Vec3.ext
    · show b.baseCenter.x + (b.discHeight + b.driverHeight) * _ = b.baseCenter.x - -_ * _
      ring
    · show b.baseCenter.y + (b.discHeight + b.driverHeight) * _ = b.baseCenter.y - -_ * _
      ring
    · show b.baseCenter.z + (b.discHeight + b.driverHeight) * _ = b.baseCenter.z - -_ * _
      ring
  · rw [if_neg hy, if_neg (fun h => hy (hiff.mp h))]
    apply Vec3.ext
    · show b.baseCenter.x + (b.discHeight + b.driverHeight) * -_ = b.baseCenter.x - _ * _
      ring
    · show b.baseCenter.y + (b.discHeight + b.driverHeight) * -_ = b.baseCenter.y - _ * _
      ring
    · show b.baseCenter.z + (b.discHeight + b.driverHeight) * -_ = b.baseCenter.z - _ * _
      ring

/-- The rational square root of `25`. -/
theorem rat_sqrt_25 : Rat.sqrt 25 = 5 := by
  have h : Rat.sqrt (5 * 5) = 5 := rat_sqrt_mul_self 5 (by norm_num)
  have h25 : (5 : ℚ) * 5 = 25 := by norm_num
  rwa [h25] at h

/-- The rational square root of `1`. -/
theorem rat_sqrt_1 : Rat.sqrt 1 = 1 := by
  have h := rat_sqrt_mul_self 1 zero_le_one
  rwa [mul_one] at h

/-- The rational square root of `0`. -/
theorem rat_sqrt_0 : Rat.sqrt 0 = 0 := by
  have h := rat_sqrt_mul_self 0 le_rfl
  rwa [mul_zero] at h

/-- The exact-arithmetic statement at `(1, 2, 3)` with angular velocity
`(3, -4, 0)`, over `ℚ`. -/
theorem getBottomPosition_eq_sub_normal_exact_at :
    (launched ⟨1, 2, 3⟩ 0 ⟨3, -4, 0⟩).getBottomPosition Rat.sqrt
      = (launched ⟨1, 2, 3⟩ 0 ⟨3, -4, 0⟩).baseCenter
        - Vec3.scale ((launched ⟨1, 2, 3⟩ 0 ⟨3, -4, 0⟩).getNormal Rat.sqrt)
            ((launched ⟨1, 2, 3⟩ 0 ⟨3, -4, 0⟩).discHeight
              + (launched ⟨1, 2, 3⟩ 0 ⟨3, -4, 0⟩).driverHeight) :=
  getBottomPosition_eq_sub_normal_exact Rat.sqrt _
    (by
      intro h
      have hx := congrArg Vec3.x h
      norm_num [launched, BeybladeBody.setInitialLaunch] at hx)
    (by
      have h : Vec3.dot (launched ⟨1, 2, 3⟩ 0 ⟨3, -4, 0⟩).angularVelocity
          (launched ⟨1, 2, 3⟩ 0 ⟨3, -4, 0⟩).angularVelocity = 25 := by
        norm_num [launched, BeybladeBody.setInitialLaunch, Vec3.dot]
      rw [h, rat_sqrt_25]
      norm_num)

/-! ## Impulse-magnitude mutators -/

/-- Claim C12, the code at a body at rest: on the default body (mass `0.06`)
with zero velocity, `accumulateImpulseMagnitude(6)` adds `(6, 0, 0)` to
accumulatedVelocity, which is not `(6 / mass, 0, 0) = (100, 0, 0)`: the
fallback branch does not divide by the mass. -/
theorem accumulateImpulseMagnitude_rest_omits_mass :
    Vec3.length Rat.sqrt (launched 0 0 ⟨0, 1, 0⟩).velocity < BeybladeBody.floatEpsilon ∧
    (launched 0 0 ⟨0, 1, 0⟩).mass = 3 / 50 ∧
    ((launched 0 0 ⟨0, 1, 0⟩).accumulateImpulseMagnitude Rat.sqrt 6).accumulatedVelocity
      = (launched 0 0 ⟨0, 1, 0⟩).accumulatedVelocity + ⟨6, 0, 0⟩ ∧
    ((launched 0 0 ⟨0, 1, 0⟩).accumulateImpulseMagnitude Rat.sqrt 6).accumulatedVelocity
      ≠ (launched 0 0 ⟨0, 1, 0⟩).accumulatedVelocity
          + ⟨6 / (launched 0 0 ⟨0, 1, 0⟩).mass, 0, 0⟩ := by
  have hlen : Vec3.length Rat.sqrt (launched 0 0 ⟨0, 1, 0⟩).velocity = 0 := by
    have h : Vec3.dot (launched 0 0 ⟨0, 1, 0⟩).velocity (launched 0 0 ⟨0, 1, 0⟩).velocity = 0 := by
      norm_num [launched, BeybladeBody.setInitialLaunch, Vec3.dot]
    unfold Vec3.length
    rw [h, rat_sqrt_0]
  have heps : Vec3.length Rat.sqrt (launched 0 0 ⟨0, 1, 0⟩).velocity
      < BeybladeBody.floatEpsilon := by
    rw [hlen]; norm_num [BeybladeBody.floatEpsilon]
  have hmass : (launched 0 0 ⟨0, 1, 0⟩).mass = 3 / 50 := by
    norm_num [launched, BeybladeBody.setInitialLaunch, BeybladeBody.newDefault,
      BeybladeBody.new, Layer.default, Disc.default, Driver.default]
  have hrun : (launched 0 0 ⟨0, 1, 0⟩).accumulateImpulseMagnitude Rat.sqrt 6
      = (launched 0 0 ⟨0, 1, 0⟩).accumulateVelocity ⟨6, 0, 0⟩ := by
    unfold BeybladeBody.accumulateImpulseMagnitude
    rw [if_pos heps]
  refine ⟨heps, hmass, ?_, ?_⟩
  · rw [hrun]; rfl
  · rw [hrun, hmass]
    intro h
    have hx := congrArg Vec3.x h
    norm_num [BeybladeBody.accumulateVelocity] at hx

/-- Claim C13: when the velocity magnitude is at least machine epsilon and the
mass is non-zero, `accumulateImpulseMagnitude(m)` adds
`m * normalize(velocity) / mass` to accumulatedVelocity and changes no other
field. -/
theorem accumulateImpulseMagnitude_general {α ρ : Type} [LinearOrderedField α] (sqrt : α → α)
    (b : BeybladeBody α ρ) (m : α)
    (hlen : BeybladeBody.floatEpsilon ≤ Vec3.length sqrt b.velocity)
    (hmass : b.mass ≠ 0) :
    b.accumulateImpulseMagnitude sqrt m
      = { b with
          accumulatedVelocity := b.accumulatedVelocity
            + ⟨m * (Vec3.normalize sqrt b.velocity).x / b.mass,
               m * (Vec3.normalize sqrt b.velocity).y / b.mass,
               m * (Vec3.normalize sqrt b.velocity).z / b.mass⟩ } := by
  have _hmass := hmass
  unfold BeybladeBody.accumulateImpulseMagnitude
  rw [if_neg (not_lt.mpr hlen)]
  rfl

/-- Witness of `accumulateImpulseMagnitude_general`: the default body moving
with velocity `(3, 4, 0)`, of length `5`, receives the impulse magnitude `6`. -/
theorem accumulateImpulseMagnitude_general_witness :
    (launched 0 ⟨3, 4, 0⟩ ⟨0, 1, 0⟩).accumulateImpulseMagnitude Rat.sqrt 6
      = { launched 0 ⟨3, 4, 0⟩ ⟨0, 1, 0⟩ with
          accumulatedVelocity := (launched 0 ⟨3, 4, 0⟩ ⟨0, 1, 0⟩).accumulatedVelocity
            + ⟨6 * (Vec3.normalize Rat.sqrt (launched 0 ⟨3, 4, 0⟩ ⟨0, 1, 0⟩).velocity).x
                / (launched 0 ⟨3, 4, 0⟩ ⟨0, 1, 0⟩).mass,
               6 * (Vec3.normalize Rat.sqrt (launched 0 ⟨3, 4, 0⟩ ⟨0, 1, 0⟩).velocity).y
                / (launched 0 ⟨3, 4, 0⟩ ⟨0, 1, 0⟩).mass,
               6 * (Vec3.normalize Rat.sqrt (launched 0 ⟨3, 4, 0⟩ ⟨0, 1, 0⟩).velocity).z
                / (launched 0 ⟨3, 4, 0⟩ ⟨0, 1, 0⟩).mass⟩ } :=
  accumulateImpulseMagnitude_general Rat.sqrt _ 6
    (by
      have h : Vec3.dot (launched 0 ⟨3, 4, 0⟩ ⟨0, 1, 0⟩).velocity
          (launched 0 ⟨3, 4, 0⟩ ⟨0, 1, 0⟩).velocity = 25 := by
        norm_num [launched, BeybladeBody.setInitialLaunch, Vec3.dot]
      unfold Vec3.length
      rw [h, rat_sqrt_25]
      norm_num [BeybladeBody.floatEpsilon])
    (by
      norm_num [launched, BeybladeBody.setInitialLaunch, BeybladeBody.newDefault,
        BeybladeBody.new, Layer.default, Disc.default, Driver.default])

/-! ## Drag terms -/

/-- Claim C14, the stated formula fails: for the default parts the constructed
linearDragTerm is `0.000414`, twice the value
`0.5 * (0.5*0.9*2*h*r + 0.5*0.9*2*h*r + 0.5*0.9*h*r) = 0.000207` of the claim. -/
theorem linearDragTerm_default_ne_claimed :
    (BeybladeBody.new (Layer.default ()) Disc.default Driver.default HeaderInit.zero :
        BeybladeBody ℚ Unit).linearDragTerm
      ≠ 0.5 * (0.5 * 0.9 * 2 * (Layer.default () : Layer ℚ Unit).height
                  * (Layer.default () : Layer ℚ Unit).radius
               + 0.5 * 0.9 * 2 * (Disc.default : Disc ℚ).height * (Disc.default : Disc ℚ).radius
               + 0.5 * 0.9 * (Driver.default : Driver ℚ).height
                  * (Driver.default : Driver ℚ).radius) := by
  norm_num [BeybladeBody.new, Layer.default, Disc.default, Driver.default]

/-- Claim C14 as amended: the factor `0.5` is applied once.  The constructed
linearDragTerm is `0.5 * (0.9*2*layerHeight*layerRadius +
0.9*2*discHeight*discRadius + 0.9*driverHeight*driverRadius)`, which is the
plain sum of the per-part values `0.5 * 0.9 * area`. -/
theorem new_linearDragTerm {α ρ : Type} [LinearOrderedField α]
    (layer : Layer α ρ) (disc : Disc α) (driver : Driver α) (hdr : HeaderInit α) :
    (BeybladeBody.new layer disc driver hdr).linearDragTerm
      = 0.5 * (0.9 * 2 * layer.height * layer.radius + 0.9 * 2 * disc.height * disc.radius
          + 0.9 * driver.height * driver.radius) ∧
    (BeybladeBody.new layer disc driver hdr).linearDragTerm
      = 0.5 * 0.9 * (2 * layer.height * layer.radius)
          + 0.5 * 0.9 * (2 * disc.height * disc.radius)
          + 0.5 * 0.9 * (driver.height * driver.radius) := by
  refine ⟨rfl, ?_⟩
  show 0.5 * (0.9 * 2 * layer.height * layer.radius + 0.9 * 2 * disc.height * disc.radius
          + 0.9 * driver.height * driver.radius) = _
  ring

/-- Claim C15: the constructed angularDragTerm is
`0.5 * (layer.rotationalDragCoefficient*layer.height*layer.radius^2 +
disc.rotationalDragCoefficient*disc.height*disc.radius^2 +
driver.rotationalDragCoefficient*driver.height*driver.radius^2)`. -/
theorem new_angularDragTerm {α ρ : Type} [LinearOrderedField α]
    (layer : Layer α ρ) (disc : Disc α) (driver : Driver α) (hdr : HeaderInit α) :
    (BeybladeBody.new layer disc driver hdr).angularDragTerm
      = 0.5 * (layer.rotationalDragCoefficient * layer.height * layer.radius ^ 2
          + disc.rotationalDragCoefficient * disc.height * disc.radius ^ 2
          + driver.rotationalDragCoefficient * driver.height * driver.radius ^ 2) := by
  show 0.5 * (layer.rotationalDragCoefficient * layer.height * layer.radius * layer.radius
      + disc.rotationalDragCoefficient * disc.height * disc.radius * disc.radius
      + driver.rotationalDragCoefficient * driver.height * driver.radius * driver.radius) = _
  ring

/-! ## The step protocol -/

/-- Adding the zero vector on the right. -/
theorem Vec3.add_zero_vec {α : Type} [AddZeroClass α] (v : Vec3 α) : v + 0 = v := by
  ext <;> simp

/-- The zero vector times any vector. -/
theorem Vec3.zero_mul_vec {α : Type} [MulZeroClass α] (v : Vec3 α) : 0 * v = 0 := by
  ext <;> simp

/-- Claim C16: on a body with zero velocity and zero accumulators (the velocity
and acceleration accumulators are the ones read), `accumulateVelocity(v)` then
`applyAccumulatedChanges(dt)` makes velocity exactly `v`, whatever `dt`; a
following `update(t)` moves baseCenter by exactly `v * t` and changes no other
field. -/
theorem accumulate_commit_update {α ρ : Type} [LinearOrderedField α]
    (b : BeybladeBody α ρ) (v : Vec3 α) (dt t : α)
    (hv : b.velocity = 0) (hav : b.accumulatedVelocity = 0)
    (haa : b.accumulatedAcceleration = 0) :
    ((b.accumulateVelocity v).applyAccumulatedChanges dt).velocity = v ∧
    (((b.accumulateVelocity v).applyAccumulatedChanges dt).update t).baseCenter
      = b.baseCenter + Vec3.scale v t ∧
    ((b.accumulateVelocity v).applyAccumulatedChanges dt).update t
      = { (b.accumulateVelocity v).applyAccumulatedChanges dt with
          baseCenter := b.baseCenter + Vec3.scale v t } := by
  have hvel : ((b.accumulateVelocity v).applyAccumulatedChanges dt).velocity = v := by
    show b.velocity + (b.accumulatedVelocity + v) + b.accumulatedAcceleration * dv3 dt = v
    rw [hv, hav, haa, Vec3.zero_mul_vec, Vec3.zero_add_vec, Vec3.zero_add_vec, Vec3.add_zero_vec]
  have hpos : (((b.accumulateVelocity v).applyAccumulatedChanges dt).update t).baseCenter
      = b.baseCenter + Vec3.scale v t := by
    show b.baseCenter + ((b.accumulateVelocity v).applyAccumulatedChanges dt).velocity * dv3 t = _
    rw [hvel]
    rfl
  have hrest : ((b.accumulateVelocity v).applyAccumulatedChanges dt).update t
      = { (b.accumulateVelocity v).applyAccumulatedChanges dt with
          baseCenter :=
            (((b.accumulateVelocity v).applyAccumulatedChanges dt).update t).baseCenter } := rfl
  rw [hpos] at hrest
  exact ⟨hvel, hpos, hrest⟩

/-- Witness of `accumulate_commit_update`: the default body (mass `0.06`) at
rest at the origin, `v = (1, 0, 0)`, `dt = 1/60`, `t = 1`; baseCenter moves to
`(1, 0, 0)`. -/
theorem accumulate_commit_update_witness :
    (launched 0 0 ⟨0, 1, 0⟩).mass = 0.06 ∧
    (((launched 0 0 ⟨0, 1, 0⟩).accumulateVelocity ⟨1, 0, 0⟩).applyAccumulatedChanges
      (1 / 60)).velocity = ⟨1, 0, 0⟩ ∧
    ((((launched 0 0 ⟨0, 1, 0⟩).accumulateVelocity ⟨1, 0, 0⟩).applyAccumulatedChanges
      (1 / 60)).update 1).baseCenter = ⟨1, 0, 0⟩ :=
  ⟨by norm_num [launched, BeybladeBody.setInitialLaunch, BeybladeBody.newDefault,
      BeybladeBody.new, Layer.default, Disc.default, Driver.default],
    (accumulate_commit_update (launched 0 0 ⟨0, 1, 0⟩) ⟨1, 0, 0⟩ (1 / 60) 1 rfl rfl rfl).1,
    by
      rw [(accumulate_commit_update (launched 0 0 ⟨0, 1, 0⟩) ⟨1, 0, 0⟩ (1 / 60) 1
        rfl rfl rfl).2.1]
      ext <;> norm_num [launched, BeybladeBody.setInitialLaunch]⟩

/-- Claim C17: two non-null bodies with non-negative layer radii whose planar
center distance `d` (the root of the squared planar distance that exceeds the
non-negative sum of the radii) is strictly greater than the sum of the layer
radii are not in contact, whatever their vertical placement. -/
theorem distanceOverlap_far_apart {α ρ : Type} [LinearOrderedField α] (sqrt : α → α)
    (a b : BeybladeBody α ρ) (d : α)
    (hra : 0 ≤ a.layerRadius) (hrb : 0 ≤ b.layerRadius)
    (hd : d * d = squaredDistance a b)
    (hfar : radiiSum a b < d) :
    BeybladeBody.distanceOverlap sqrt (some a) (some b) = Except.ok none := by
  have hr : 0 ≤ radiiSum a b := add_nonneg hra hrb
  have hlt : radiiSum a b ^ 2 < squaredDistance a b := by
    rw [← hd]
    nlinarith
  have hno : ¬ (0 < radiiSum a b ^ 2 - squaredDistance a b) := by
    intro h
    linarith
  rw [distanceOverlap_some_some]
  simp [hno]

/-- Witness of `distanceOverlap_far_apart`: two default bodies (layer radius
`0.025`) at `(0, 0, 0)` and `(3, 0, 4)`, at planar distance `5`. -/
theorem distanceOverlap_far_apart_witness :
    BeybladeBody.distanceOverlap Rat.sqrt
        (some (launched ⟨0, 0, 0⟩ 0 ⟨0, 1, 0⟩)) (some (launched ⟨3, 0, 4⟩ 0 ⟨0, 1, 0⟩))
      = Except.ok none :=
  distanceOverlap_far_apart Rat.sqrt _ _ 5
    (by norm_num [launched, BeybladeBody.setInitialLaunch, BeybladeBody.newDefault,
      BeybladeBody.new, Layer.default])
    (by norm_num [launched, BeybladeBody.setInitialLaunch, BeybladeBody.newDefault,
      BeybladeBody.new, Layer.default])
    (by norm_num [squaredDistance, launched, BeybladeBody.setInitialLaunch])
    (by norm_num [radiiSum, launched, BeybladeBody.setInitialLaunch, BeybladeBody.newDefault,
      BeybladeBody.new, Layer.default])

/-! ## Accumulate phase -/

/-- Claim C18: each of the six accumulate-phase mutators leaves baseCenter,
velocity and angularVelocity unchanged, for every body and argument. -/
theorem accumulate_preserves_kineticState {α ρ : Type} [LinearOrderedField α] (sqrt : α → α)
    (b : BeybladeBody α ρ) (v : Vec3 α) (m : α) :
    kineticState (b.accumulateVelocity v) = kineticState b ∧
    kineticState (b.accumulateAngularVelocity v) = kineticState b ∧
    kineticState (b.accumulateAcceleration v) = kineticState b ∧
    kineticState (b.accumulateAngularAcceleration v) = kineticState b ∧
    kineticState (b.accumulateImpulseMagnitude sqrt m) = kineticState b ∧
    kineticState (b.accumulateAngularImpulseMagnitude sqrt m) = kineticState b := by
  refine ⟨rfl, rfl, rfl, rfl, ?_, ?_⟩
  · unfold BeybladeBody.accumulateImpulseMagnitude
    split_ifs <;> rfl
  · unfold BeybladeBody.accumulateAngularImpulseMagnitude
    split_ifs <;> rfl

/-- Swapping the last two summands of a sum of three vectors. -/
theorem Vec3.add_right_comm_vec {α : Type} [AddCommSemigroup α] (u v w : Vec3 α) :
    u + v + w = u + w + v := by
  ext <;> simp [add_right_comm]

/-- The linear impulse mutator adds to accumulatedVelocity a vector that is a
function of velocity, mass and the magnitude alone. -/
theorem accumulateImpulseMagnitude_eq_accumulateVelocity {α ρ : Type} [Zero α] [One α] [Add α] [Mul α] [Div α] [LT α]
    [DecidableRel (fun a b : α => a < b)] [NatCast α]
    (sqrt : α → α) (b : BeybladeBody α ρ) (m : α) :
    b.accumulateImpulseMagnitude sqrt m
      = b.accumulateVelocity
          (if Vec3.length sqrt b.velocity < BeybladeBody.floatEpsilon then ⟨m, 0, 0⟩
           else dv3 m * Vec3.normalize sqrt b.velocity / dv3 b.mass) := by
  unfold BeybladeBody.accumulateImpulseMagnitude
  split_ifs <;> rfl

/-- The angular impulse mutator adds to accumulatedAngularVelocity a vector that
is a function of angularVelocity, momentOfInertia and the magnitude alone. -/
theorem accumulateAngularImpulseMagnitude_eq_accumulateAngularVelocity {α ρ : Type} [Zero α] [One α] [Add α] [Mul α] [Div α] [LT α]
    [DecidableRel (fun a b : α => a < b)] [NatCast α]
    (sqrt : α → α) (b : BeybladeBody α ρ) (m : α) :
    b.accumulateAngularImpulseMagnitude sqrt m
      = b.accumulateAngularVelocity
          (if Vec3.length sqrt b.angularVelocity < BeybladeBody.floatEpsilon then ⟨m, 0, 0⟩
           else dv3 m * Vec3.normalize sqrt b.angularVelocity / dv3 b.momentOfInertia) := by
  unfold BeybladeBody.accumulateAngularImpulseMagnitude
  split_ifs <;> rfl

/-- Exact arithmetic only: in an ordered field any two calls of the additive
mutators give the same body in either order.  For two calls on one accumulator
the proof uses that addition is associative and commutative, which binary32
addition is not. -/
theorem additiveCalls_commute_exact {α ρ : Type} [LinearOrderedField α] (sqrt : α → α)
    (c1 c2 : AdditiveCall α) (b : BeybladeBody α ρ) :
    c2.run sqrt (c1.run sqrt b) = c1.run sqrt (c2.run sqrt b) ∧
    ∀ dt : α, (c2.run sqrt (c1.run sqrt b)).applyAccumulatedChanges dt
      = (c1.run sqrt (c2.run sqrt b)).applyAccumulatedChanges dt := by
  have key : c2.run sqrt (c1.run sqrt b) = c1.run sqrt (c2.run sqrt b) := by
    cases c1 <;> cases c2 <;>
      simp only [AdditiveCall.run, accumulateImpulseMagnitude_eq_accumulateVelocity,
        accumulateAngularImpulseMagnitude_eq_accumulateAngularVelocity,
        BeybladeBody.accumulateVelocity, BeybladeBody.accumulateAngularVelocity,
        BeybladeBody.accumulateAngularAcceleration] <;>
      first
        | rfl
        | (congr 1; exact Vec3.add_right_comm_vec _ _ _)
  exact ⟨key, fun dt => by rw [key]⟩

/-! ## Spin handedness -/

/-- Negating a vector negates its normalization, by the sign laws alone. -/
theorem Vec3.normalize_neg {α : Type} [Zero α] [One α] [Add α] [Sub α] [Mul α] [Div α] [Neg α]
    [LT α] [SignedArith α] (sqrt : α → α) (w : Vec3 α) :
    Vec3.normalize sqrt (-w) = -Vec3.normalize sqrt w := by
  have hsq : ∀ x : α, -x * -x = x * x := fun x => by
    rw [SignedArith.neg_mul, SignedArith.mul_neg, SignedArith.neg_neg]
  have hdot : Vec3.dot (-w) (-w) = Vec3.dot w w := by
    show -w.x * -w.x + -w.y * -w.y + -w.z * -w.z = w.x * w.x + w.y * w.y + w.z * w.z
    rw [hsq, hsq, hsq]
  unfold Vec3.normalize
  rw [hdot]
  apply Vec3.ext
  · exact SignedArith.neg_mul _ _
  · exact SignedArith.neg_mul _ _
  · exact SignedArith.neg_mul _ _

/-- Claim C20, the stated property fails on a horizontal spin axis: with
angular velocity `(1, 0, 0)` the normal is `(1, 0, 0)`, with the opposite
angular velocity it is `(-1, 0, 0)`. -/
theorem getNormal_horizontal_axis_differs :
    (launched 0 0 ⟨1, 0, 0⟩).getNormal Rat.sqrt = ⟨1, 0, 0⟩ ∧
    (launched 0 0 (-⟨1, 0, 0⟩)).getNormal Rat.sqrt = ⟨-1, 0, 0⟩ ∧
    (launched 0 0 ⟨1, 0, 0⟩).getNormal Rat.sqrt
      ≠ (launched 0 0 (-⟨1, 0, 0⟩)).getNormal Rat.sqrt := by
  have h1 : (launched 0 0 ⟨1, 0, 0⟩).getNormal Rat.sqrt = ⟨1, 0, 0⟩ := by
    rw [getNormal_eq]
    have hn : Vec3.normalize Rat.sqrt (launched 0 0 ⟨1, 0, 0⟩).angularVelocity = ⟨1, 0, 0⟩ := by
      have hd : Vec3.dot (launched 0 0 ⟨1, 0, 0⟩).angularVelocity
          (launched 0 0 ⟨1, 0, 0⟩).angularVelocity = 1 := by
        norm_num [launched, BeybladeBody.setInitialLaunch, Vec3.dot]
      unfold Vec3.normalize Vec3.inversesqrt
      rw [hd, rat_sqrt_1]
      ext <;> norm_num [launched, BeybladeBody.setInitialLaunch]
    rw [hn]
    norm_num
  have h2 : (launched 0 0 (-⟨1, 0, 0⟩)).getNormal Rat.sqrt = ⟨-1, 0, 0⟩ := by
    rw [getNormal_eq]
    have hn : Vec3.normalize Rat.sqrt (launched 0 0 (-⟨1, 0, 0⟩)).angularVelocity
        = ⟨-1, 0, 0⟩ := by
      have hd : Vec3.dot (launched 0 0 (-⟨1, 0, 0⟩)).angularVelocity
          (launched 0 0 (-⟨1, 0, 0⟩)).angularVelocity = 1 := by
        norm_num [launched, BeybladeBody.setInitialLaunch, Vec3.dot]
      unfold Vec3.normalize Vec3.inversesqrt
      rw [hd, rat_sqrt_1]
      ext <;> norm_num [launched, BeybladeBody.setInitialLaunch]
    rw [hn]
    norm_num
  refine ⟨h1, h2, ?_⟩
  rw [h1, h2]
  intro h
  have hx := congrArg Vec3.x h
  norm_num at hx

/-- Exact arithmetic only: in an ordered field, for an angular velocity `w`
with `w.y ≠ 0` and positive length `sqrt(dot w w)`, a body with angularVelocity
`w` and one with `-w` return the same `getNormal()`. -/
theorem getNormal_neg_of_y_ne_zero_exact {α ρ : Type} [LinearOrderedField α] (sqrt : α → α)
    (b1 b2 : BeybladeBody α ρ)
    (hneg : b2.angularVelocity = -b1.angularVelocity)
    (hy : b1.angularVelocity.y ≠ 0)
    (hpos : 0 < sqrt (Vec3.dot b1.angularVelocity b1.angularVelocity)) :
    b1.getNormal sqrt = b2.getNormal sqrt := by
  have hiff := Vec3.normalize_y_neg_iff sqrt b1.angularVelocity hpos
  rw [getNormal_eq, getNormal_eq, hneg, Vec3.normalize_neg]
  have hnn : ∀ u : Vec3 α, - -u = u := fun u => by ext <;> simp
  rcases lt_or_gt_of_ne hy with h | h
  · have hlt := hiff.mpr h
    have hng : ¬ (-Vec3.normalize sqrt b1.angularVelocity).y < 0 := by
      rw [Vec3.neg_y]
      exact not_lt.mpr (neg_nonneg.mpr hlt.le)
    rw [if_pos hlt, if_neg hng]
  · have hnl : ¬ (Vec3.normalize sqrt b1.angularVelocity).y < 0 :=
      fun hc => absurd (hiff.mp hc) (not_lt.mpr h.le)
    have hinv : 0 < 1 / sqrt (Vec3.dot b1.angularVelocity b1.angularVelocity) :=
      one_div_pos.mpr hpos
    have hgt : 0 < (Vec3.normalize sqrt b1.angularVelocity).y := mul_pos h hinv
    have hlt : (-Vec3.normalize sqrt b1.angularVelocity).y < 0 := by
      rw [Vec3.neg_y]
      exact neg_neg_of_pos hgt
    rw [if_neg hnl, if_pos hlt, hnn]

/-- The exact-arithmetic statement at `(3, -4, 0)` and `(-3, 4, 0)`, over `ℚ`. -/
theorem getNormal_neg_of_y_ne_zero_exact_at :
    (launched 0 0 ⟨3, -4, 0⟩).getNormal Rat.sqrt
      = (launched 0 0 (-⟨3, -4, 0⟩)).getNormal Rat.sqrt :=
  getNormal_neg_of_y_ne_zero_exact Rat.sqrt _ _ rfl
    (by norm_num [launched, BeybladeBody.setInitialLaunch])
    (by
      have h : Vec3.dot (launched 0 0 ⟨3, -4, 0⟩).angularVelocity
          (launched 0 0 ⟨3, -4, 0⟩).angularVelocity = 25 := by
        norm_num [launched, BeybladeBody.setInitialLaunch, Vec3.dot]
      rw [h, rat_sqrt_25]
      norm_num)

/-! ## Material coefficients -/

/-- Claim C21, the code on parts with non-stock coefficients: from a Layer with
coefficientOfRestitution `0.5` and a Driver with coefficientOfFriction `0.5`
(all other fields the stock values) the constructed body has
coefficientOfRestitution `0.8` and coefficientOfFriction `0.2`, the constants of
the initialiser list, not the values of its parts. -/
theorem new_coefficients_ignore_parts :
    (BeybladeBody.new { (Layer.default () : Layer ℚ Unit) with coefficientOfRestitution := 0.5 }
        Disc.default { (Driver.default : Driver ℚ) with coefficientOfFriction := 0.5 }
        HeaderInit.zero).coefficientOfRestitution = 0.8 ∧
    (BeybladeBody.new { (Layer.default () : Layer ℚ Unit) with coefficientOfRestitution := 0.5 }
        Disc.default { (Driver.default : Driver ℚ) with coefficientOfFriction := 0.5 }
        HeaderInit.zero).coefficientOfFriction = 0.2 ∧
    (BeybladeBody.new { (Layer.default () : Layer ℚ Unit) with coefficientOfRestitution := 0.5 }
        Disc.default { (Driver.default : Driver ℚ) with coefficientOfFriction := 0.5 }
        HeaderInit.zero).coefficientOfRestitution
      ≠ ({ (Layer.default () : Layer ℚ Unit) with
            coefficientOfRestitution := 0.5 }).coefficientOfRestitution ∧
    (BeybladeBody.new { (Layer.default () : Layer ℚ Unit) with coefficientOfRestitution := 0.5 }
        Disc.default { (Driver.default : Driver ℚ) with coefficientOfFriction := 0.5 }
        HeaderInit.zero).coefficientOfFriction
      ≠ ({ (Driver.default : Driver ℚ) with coefficientOfFriction := 0.5 }).coefficientOfFriction := by
  refine ⟨rfl, rfl, ?_, ?_⟩
  · show (0.8 : ℚ) ≠ 0.5
    norm_num
  · show (0.2 : ℚ) ≠ 0.5
    norm_num

/-! ## Symmetry of the contact test -/

/-- The squared planar distance does not depend on the order of the bodies. -/
theorem squaredDistance_comm {α ρ : Type} [LinearOrderedField α] (a b : BeybladeBody α ρ) :
    squaredDistance a b = squaredDistance b a := by
  unfold squaredDistance
  ring

/-- The sum of the layer radii does not depend on the order of the bodies. -/
theorem radiiSum_comm {α ρ : Type} [LinearOrderedField α] (a b : BeybladeBody α ρ) :
    radiiSum a b = radiiSum b a := by
  unfold radiiSum
  ring

/-- With non-negative layer heights the vertical pre-check gives the same
answer for both orders of the bodies, also when the centers have equal y and
the two calls assign the lower and higher roles differently. -/
theorem verticallySeparated_comm {α ρ : Type} [LinearOrderedField α] (a b : BeybladeBody α ρ)
    (hha : 0 ≤ a.layerHeight) (hhb : 0 ≤ b.layerHeight) :
    verticallySeparated a b ↔ verticallySeparated b a := by
  unfold verticallySeparated BeybladeBody.lowerBey BeybladeBody.higherBey
    BeybladeBody.getCenter
  rcases lt_trichotomy a.baseCenter.y b.baseCenter.y with h | h | h
  · rw [if_pos h, if_pos h, if_neg (not_lt.mpr h.le), if_neg (not_lt.mpr h.le)]
  · have hab : ¬ a.baseCenter.y < b.baseCenter.y := by rw [h]; exact lt_irrefl _
    have hba : ¬ b.baseCenter.y < a.baseCenter.y := by rw [h]; exact lt_irrefl _
    rw [if_neg hab, if_neg hab, if_neg hba, if_neg hba]
    constructor
    · intro hlt
      exfalso
      linarith
    · intro hlt
      exfalso
      linarith
  · rw [if_neg (not_lt.mpr h.le), if_neg (not_lt.mpr h.le), if_pos h, if_pos h]

/-- Claim C22: for two non-null bodies with non-negative layer heights
`distanceOverlap(a, b) = distanceOverlap(b, a)`, same presence and same depth,
also when the two centers have equal y. -/
theorem distanceOverlap_comm {α ρ : Type} [LinearOrderedField α] (sqrt : α → α)
    (a b : BeybladeBody α ρ)
    (hha : 0 ≤ a.layerHeight) (hhb : 0 ≤ b.layerHeight) :
    BeybladeBody.distanceOverlap sqrt (some a) (some b)
      = BeybladeBody.distanceOverlap sqrt (some b) (some a) := by
  rw [distanceOverlap_some_some, distanceOverlap_some_some, radiiSum_comm b a,
    squaredDistance_comm b a]
  have hv := verticallySeparated_comm a b hha hhb
  by_cases h : verticallySeparated a b
  · have h' : verticallySeparated b a := hv.mp h
    simp [h, h']
  · have h' : ¬ verticallySeparated b a := fun hc => h (hv.mpr hc)
    simp [h, h']

/-- Witness of `distanceOverlap_comm`: two default bodies (layer height `0.01`,
layer radius `0.025`) with centers of equal y, `0.03` apart in x; both orders
report contact with the same depth. -/
theorem distanceOverlap_comm_witness :
    (launched ⟨0, 1, 0⟩ 0 ⟨0, 1, 0⟩).baseCenter.y = (launched ⟨0.03, 1, 0⟩ 0 ⟨0, 1, 0⟩).baseCenter.y ∧
    BeybladeBody.distanceOverlap Rat.sqrt
        (some (launched ⟨0, 1, 0⟩ 0 ⟨0, 1, 0⟩)) (some (launched ⟨0.03, 1, 0⟩ 0 ⟨0, 1, 0⟩))
      = BeybladeBody.distanceOverlap Rat.sqrt
        (some (launched ⟨0.03, 1, 0⟩ 0 ⟨0, 1, 0⟩)) (some (launched ⟨0, 1, 0⟩ 0 ⟨0, 1, 0⟩)) :=
  ⟨rfl, distanceOverlap_comm Rat.sqrt _ _
    (by norm_num [launched, BeybladeBody.setInitialLaunch, BeybladeBody.newDefault,
      BeybladeBody.new, Layer.default])
    (by norm_num [launched, BeybladeBody.setInitialLaunch, BeybladeBody.newDefault,
      BeybladeBody.new, Layer.default])⟩

/-! ## The getters in binary32 arithmetic -/

/-- Rounding alone already breaks unit length: with round-to-nearest after each
operation, for the angular velocity `(1, 1, 1)` the length
`glm::length(getNormal())` is `1 - 2^-24`, the binary32 number just below
`1`. -/
theorem getNormal_rounding_not_unit :
    Vec3.length F32.sqrt ((floatBody 0 0 0 ⟨1, 1, 1⟩ 0).getNormal F32.sqrt)
      = F32.ofRatio false (2 ^ 24 - 1) (2 ^ 24) ∧
    Vec3.length F32.sqrt ((floatBody 0 0 0 ⟨1, 1, 1⟩ 0).getNormal F32.sqrt) ≠ 1 := by
  decide!

/-- Claim C11, the stated equation fails in the arithmetic of `glm::vec3`: a
body at the origin with discHeight `0.5`, driverHeight `0.25` and angular
velocity `(1e4, -1e-42, 0)`.  The normalized y underflows to `-0`, which is not
`< 0`, so `getNormal()` is not flipped and is `(1, -0, 0)`, while
`getBottomPosition()` takes its `angularVelocity.y < 0` branch and returns
`(0.75, 0, 0)`; `baseCenter - 0.75 * getNormal()` is `(-0.75, 0, 0)`. -/
theorem getBottomPosition_underflow_differs :
    (floatBody (F32.ofRatio false 1 2) (F32.ofRatio false 1 4) 0
        ⟨10000, F32.ofRatio true 1 (10 ^ 42), 0⟩ 0).angularVelocity ≠ 0 ∧
    (floatBody (F32.ofRatio false 1 2) (F32.ofRatio false 1 4) 0
        ⟨10000, F32.ofRatio true 1 (10 ^ 42), 0⟩ 0).getNormal F32.sqrt = ⟨1, F32.fin true 0, 0⟩ ∧
    (floatBody (F32.ofRatio false 1 2) (F32.ofRatio false 1 4) 0
        ⟨10000, F32.ofRatio true 1 (10 ^ 42), 0⟩ 0).getBottomPosition F32.sqrt = ⟨F32.ofRatio false 3 4, 0, 0⟩ ∧
    (floatBody (F32.ofRatio false 1 2) (F32.ofRatio false 1 4) 0
        ⟨10000, F32.ofRatio true 1 (10 ^ 42), 0⟩ 0).baseCenter
      - Vec3.scale ((floatBody (F32.ofRatio false 1 2) (F32.ofRatio false 1 4) 0
        ⟨10000, F32.ofRatio true 1 (10 ^ 42), 0⟩ 0).getNormal F32.sqrt)
          ((floatBody (F32.ofRatio false 1 2) (F32.ofRatio false 1 4) 0
        ⟨10000, F32.ofRatio true 1 (10 ^ 42), 0⟩ 0).discHeight
            + (floatBody (F32.ofRatio false 1 2) (F32.ofRatio false 1 4) 0
        ⟨10000, F32.ofRatio true 1 (10 ^ 42), 0⟩ 0).driverHeight)
        = ⟨F32.ofRatio true 3 4, 0, 0⟩ ∧
    (floatBody (F32.ofRatio false 1 2) (F32.ofRatio false 1 4) 0
        ⟨10000, F32.ofRatio true 1 (10 ^ 42), 0⟩ 0).getBottomPosition F32.sqrt
      ≠ (floatBody (F32.ofRatio false 1 2) (F32.ofRatio false 1 4) 0
        ⟨10000, F32.ofRatio true 1 (10 ^ 42), 0⟩ 0).baseCenter
        - Vec3.scale ((floatBody (F32.ofRatio false 1 2) (F32.ofRatio false 1 4) 0
        ⟨10000, F32.ofRatio true 1 (10 ^ 42), 0⟩ 0).getNormal F32.sqrt)
            ((floatBody (F32.ofRatio false 1 2) (F32.ofRatio false 1 4) 0
        ⟨10000, F32.ofRatio true 1 (10 ^ 42), 0⟩ 0).discHeight
              + (floatBody (F32.ofRatio false 1 2) (F32.ofRatio false 1 4) 0
        ⟨10000, F32.ofRatio true 1 (10 ^ 42), 0⟩ 0).driverHeight) := by
  decide!

/-- Claim C11 as amended: in every arithmetic with the sign laws (exact or
binary32), for every body in which the y component of the normalized angular
velocity is negative exactly when `angularVelocity.y` is negative,
`getBottomPosition()` is
`baseCenter - (discHeight + driverHeight) * getNormal()`. -/
theorem getBottomPosition_eq_sub_normal {α ρ : Type} [Zero α] [One α] [Add α] [Sub α] [Mul α]
    [Div α] [Neg α] [LT α] [DecidableRel (fun a b : α => a < b)] [SignedArith α]
    (sqrt : α → α) (b : BeybladeBody α ρ)
    (hagree : (Vec3.normalize sqrt b.angularVelocity).y < 0 ↔ b.angularVelocity.y < 0) :
    b.getBottomPosition sqrt
      = b.baseCenter - Vec3.scale (b.getNormal sqrt) (b.discHeight + b.driverHeight) := by
  rw [getBottomPosition_eq, getNormal_eq]
  have hflip : ∀ p h n : α, p + h * n = p - -n * h := fun p h n => by
    rw [SignedArith.neg_mul, SignedArith.sub_eq_add_neg, SignedArith.neg_neg,
      SignedArith.mul_comm n h]
  have hkeep : ∀ p h n : α, p + h * -n = p - n * h := fun p h n => by
    rw [SignedArith.mul_neg, SignedArith.sub_eq_add_neg, SignedArith.mul_comm n h]
  by_cases hy : b.angularVelocity.y < 0
  · rw [if_pos hy, if_pos (hagree.mpr hy)]
    apply Vec3.ext
    · exact hflip _ _ _
    · exact hflip _ _ _
    · exact hflip _ _ _
  · rw [if_neg hy, if_neg (fun h => hy (hagree.mp h))]
    apply Vec3.ext
    · exact hkeep _ _ _
    · exact hkeep _ _ _
    · exact hkeep _ _ _

/-- Witness of `getBottomPosition_eq_sub_normal` in binary32: a body at
`(1, 2, 3)` with discHeight `0.5`, driverHeight `0.25` and angular velocity
`(3, -4, 0)`; the normalized y is negative, as the raw y is. -/
theorem getBottomPosition_eq_sub_normal_witness :
    (floatBody (F32.ofRatio false 1 2) (F32.ofRatio false 1 4) ⟨1, 2, 3⟩
        ⟨3, F32.ofRatio true 4 1, 0⟩ 0).getBottomPosition F32.sqrt
      = (floatBody (F32.ofRatio false 1 2) (F32.ofRatio false 1 4) ⟨1, 2, 3⟩
        ⟨3, F32.ofRatio true 4 1, 0⟩ 0).baseCenter
        - Vec3.scale ((floatBody (F32.ofRatio false 1 2) (F32.ofRatio false 1 4) ⟨1, 2, 3⟩
        ⟨3, F32.ofRatio true 4 1, 0⟩ 0).getNormal F32.sqrt)
            ((floatBody (F32.ofRatio false 1 2) (F32.ofRatio false 1 4) ⟨1, 2, 3⟩
        ⟨3, F32.ofRatio true 4 1, 0⟩ 0).discHeight
              + (floatBody (F32.ofRatio false 1 2) (F32.ofRatio false 1 4) ⟨1, 2, 3⟩
        ⟨3, F32.ofRatio true 4 1, 0⟩ 0).driverHeight) :=
  getBottomPosition_eq_sub_normal F32.sqrt
    (floatBody (F32.ofRatio false 1 2) (F32.ofRatio false 1 4) ⟨1, 2, 3⟩
        ⟨3, F32.ofRatio true 4 1, 0⟩ 0)
    (by decide!)

/-! ## Order of accumulation in binary32 arithmetic -/

/-- Claim C20 as amended: in every arithmetic with the sign laws (exact or
binary32), when the y component of the normalized angular velocity, the value
`getNormal()` tests, is strictly negative or strictly positive, a body with
angularVelocity `w` and a body with angularVelocity `-w` return the same
`getNormal()`. -/
theorem getNormal_neg_of_normalized_y_ne_zero {α ρ : Type} [Zero α] [One α] [Add α] [Sub α]
    [Mul α] [Div α] [Neg α] [LT α] [DecidableRel (fun a b : α => a < b)] [SignedArith α]
    (sqrt : α → α) (b1 b2 : BeybladeBody α ρ)
    (hneg : b2.angularVelocity = -b1.angularVelocity)
    (hy : (Vec3.normalize sqrt b1.angularVelocity).y < 0
      ∨ 0 < (Vec3.normalize sqrt b1.angularVelocity).y) :
    b1.getNormal sqrt = b2.getNormal sqrt := by
  rw [getNormal_eq, getNormal_eq, hneg, Vec3.normalize_neg]
  have hnn : ∀ u : Vec3 α, - -u = u := fun u => by
    apply Vec3.ext
    · exact SignedArith.neg_neg _
    · exact SignedArith.neg_neg _
    · exact SignedArith.neg_neg _
  rcases hy with hlt | hgt
  · have hng : ¬ (-Vec3.normalize sqrt b1.angularVelocity).y < 0 :=
      SignedArith.neg_not_lt_zero _ hlt
    rw [if_pos hlt, if_neg hng]
  · have hlt : (-Vec3.normalize sqrt b1.angularVelocity).y < 0 :=
      SignedArith.neg_lt_zero _ hgt
    have hnl : ¬ (Vec3.normalize sqrt b1.angularVelocity).y < 0 := by
      intro hc
      have h1 := SignedArith.neg_not_lt_zero _ hc
      exact h1 hlt
    rw [if_neg hnl, if_pos hlt, hnn]

/-- Witness of `getNormal_neg_of_normalized_y_ne_zero` in binary32: angular
velocities `(3, -4, 0)` and `(-3, 4, -0)`; the normalized y of the first is
negative. -/
theorem getNormal_neg_of_normalized_y_ne_zero_witness :
    (floatBody 0 0 0 ⟨3, F32.ofRatio true 4 1, 0⟩ 0).getNormal F32.sqrt
      = (floatBody 0 0 0 (-⟨3, F32.ofRatio true 4 1, 0⟩) 0).getNormal F32.sqrt :=
  have hneg : (floatBody 0 0 0 (-⟨3, F32.ofRatio true 4 1, 0⟩) 0).angularVelocity
      = -(floatBody 0 0 0 ⟨3, F32.ofRatio true 4 1, 0⟩ 0).angularVelocity := by
    decide!
  have hy : (Vec3.normalize F32.sqrt
      (floatBody 0 0 0 ⟨3, F32.ofRatio true 4 1, 0⟩ 0).angularVelocity).y < 0 := by
    decide!
  getNormal_neg_of_normalized_y_ne_zero F32.sqrt _ _ hneg (Or.inl hy)

end BattleBeyz
